import Mathlib

/-!
Verification of the Silo HDF5 storage driver (`src/hdf5_drv/silo_hdf5.c`)
against its natural-language specification.  Each C function needed by the
claims is shallowly embedded as an executable Lean definition: machine
integers become `Nat`/`Int`, C strings become `String`/`List Char`, and the
process-wide globals become explicit state arguments.  Definitions keep the
source names where Lean allows it.
-/

namespace Silo

/-! ## Type registry (silo_hdf5.c:2760-2792 `hdf2silo_type`,
    2851-2881 `hdf2hdf_type`, 2813-2825 `silo2silo_type`) -/

/-- Widths in bytes of the native C scalar types on the host platform
(`sizeof(char)`, `sizeof(short)`, ... in the source). -/
structure Platform where
  charW : Nat
  shortW : Nat
  intW : Nat
  longW : Nat
  floatW : Nat
  doubleW : Nat
deriving DecidableEq, Repr

/-- HDF5 datatype classes distinguished by `H5Tget_class` in the source
(`H5T_INTEGER`, `H5T_FLOAT`, anything else). -/
inductive H5TClass
  | integer
  | float
  | other
deriving DecidableEq, Repr

/-- Silo memory datatype kinds (`DB_CHAR` ... `DB_DOUBLE`). -/
inductive SiloKind
  | DB_CHAR
  | DB_SHORT
  | DB_INT
  | DB_LONG
  | DB_FLOAT
  | DB_DOUBLE
deriving DecidableEq, Repr

open SiloKind

/-- In-memory width of a Silo kind on platform `p`. -/
def memWidth (p : Platform) : SiloKind → Nat
  | DB_CHAR => p.charW
  | DB_SHORT => p.shortW
  | DB_INT => p.intW
  | DB_LONG => p.longW
  | DB_FLOAT => p.floatW
  | DB_DOUBLE => p.doubleW

/-- Embedding of `hdf2silo_type` (silo_hdf5.c:2760-2792).  `size` is
`H5Tget_size(type)`, the stored file width in bytes; the result `none`
models the C return value `-1`.  The global `force_single_g` is passed in
as `fs` to record that the function's body never reads it (see the comment
block at silo_hdf5.c:2755-2756). -/
def hdf2silo_type (p : Platform) (fs : Bool) (cls : H5TClass) (size : Nat) :
    Option SiloKind :=
  match cls with
  | .integer =>
      if p.charW ≥ size then some DB_CHAR
      else if p.intW ≠ p.shortW ∧ p.shortW ≥ size then some DB_SHORT
      else if p.intW ≥ size then some DB_INT
      else some DB_LONG
  | .float =>
      if p.doubleW ≠ p.floatW ∧ p.floatW ≥ size then some DB_FLOAT
      else if p.doubleW ≥ size then some DB_DOUBLE
      else none
  | .other => none

/-- The four integer kinds in the order the source tests them. -/
def intKinds : List SiloKind := [DB_CHAR, DB_SHORT, DB_INT, DB_LONG]

/-- Spec-side definition (refinement target), following the claim's words:
the first (smallest, on a width-monotone platform) integer kind whose
in-memory width is `≥ size`, in the order CHAR, SHORT, INT, LONG, where
SHORT is skipped on a platform with `short == int` width; when no kind
fits, the source still answers LONG. -/
def intFirstFit (p : Platform) (size : Nat) : SiloKind :=
  if p.charW ≥ size then DB_CHAR
  else if p.intW ≠ p.shortW ∧ p.shortW ≥ size then DB_SHORT
  else if p.intW ≥ size then DB_INT
  else DB_LONG

/-- A platform whose integer widths are ordered char ≤ short ≤ int ≤ long
and whose float width is at most its double width. -/
def Platform.monotone (p : Platform) : Prop :=
  p.charW ≤ p.shortW ∧ p.shortW ≤ p.intW ∧ p.intW ≤ p.longW ∧
    p.floatW ≤ p.doubleW

instance (p : Platform) : Decidable p.monotone := by
  unfold Platform.monotone; infer_instance

/-- The ordinary LP64 platform: char 1, short 2, int 4, long 8,
float 4, double 8. -/
def lp64 : Platform := ⟨1, 2, 4, 8, 4, 8⟩

/-- A platform on which `sizeof(float) == sizeof(double)` (e.g. classic
Cray vector machines with 8-byte float). -/
def cray64 : Platform := ⟨1, 2, 4, 8, 8, 8⟩

/-- C1 counterexample.  The claim "hdf2silo_type returns the smallest
memory kind whose in-memory width is greater than or equal to the file
width" fails as stated: (a) an integer file type wider than `long`
(16 bytes on LP64) still yields `DB_LONG`, whose width 8 is smaller than
the file width; (b) a float file type wider than `double` yields no kind
at all (`-1`); (c) on a platform with `float == double` width, a 4-byte
float file type yields `DB_DOUBLE` even though `DB_FLOAT` fits and comes
first, an asymmetry the claim grants only to SHORT/INT. -/
theorem hdf2silo_type_smallest_fit_ctex :
    (hdf2silo_type lp64 false .integer 16 = some SiloKind.DB_LONG ∧
      memWidth lp64 SiloKind.DB_LONG < 16) ∧
    hdf2silo_type lp64 false .float 16 = none ∧
    (hdf2silo_type cray64 false .float 4 = some SiloKind.DB_DOUBLE ∧
      4 ≤ memWidth cray64 SiloKind.DB_FLOAT) := by
  decide

/-- C1 (amended).  `hdf2silo_type` never depends on the force-single
flag, and on a width-monotone platform it implements smallest-fit
inference with three documented asymmetries: SHORT is never returned when
`short == int` width; integer file widths exceeding `long` still return
LONG; FLOAT is never returned when `float == double` width, and float
file widths exceeding `double` fail with `-1` (`none`). -/
theorem hdf2silo_type_amended (p : Platform) (fs fs' : Bool)
    (cls : H5TClass) (size : Nat) (hm : p.monotone) :
    hdf2silo_type p fs cls size = hdf2silo_type p fs' cls size ∧
    hdf2silo_type p fs .integer size = some (intFirstFit p size) ∧
    (size ≤ p.longW → size ≤ memWidth p (intFirstFit p size)) ∧
    (∀ k ∈ intKinds, size ≤ memWidth p k →
      memWidth p (intFirstFit p size) ≤ memWidth p k) ∧
    (p.shortW = p.intW → intFirstFit p size ≠ SiloKind.DB_SHORT) ∧
    (p.longW < size → intFirstFit p size = SiloKind.DB_LONG) ∧
    (p.floatW ≠ p.doubleW → size ≤ p.floatW →
      hdf2silo_type p fs .float size = some SiloKind.DB_FLOAT) ∧
    (p.floatW < size → size ≤ p.doubleW →
      hdf2silo_type p fs .float size = some SiloKind.DB_DOUBLE) ∧
    (p.floatW = p.doubleW → size ≤ p.doubleW →
      hdf2silo_type p fs .float size = some SiloKind.DB_DOUBLE) ∧
    (p.doubleW < size → hdf2silo_type p fs .float size = none) := by
  obtain ⟨hcs, hsi, hil, hfd⟩ := hm
  refine ⟨rfl, ?_, ?_, ?_, ?_, ?_, ?_, ?_, ?_, ?_⟩
  · simp only [hdf2silo_type, intFirstFit]
    split_ifs <;> rfl
  · intro hl
    simp only [intFirstFit]
    split_ifs with h1 h2 h3 <;> simp only [memWidth] <;> omega
  · intro k hk hfit
    fin_cases hk <;>
      simp only [memWidth, intFirstFit] at hfit ⊢ <;>
      split_ifs <;> simp only [memWidth] <;> omega
  · intro hse
    simp only [intFirstFit]
    split_ifs with h1 h2 h3 <;> simp_all
  · intro hl
    simp only [intFirstFit]
    split_ifs <;> first | rfl | omega
  · intro hne hfit
    simp only [hdf2silo_type]
    rw [if_pos ⟨fun h => hne h.symm, hfit⟩]
  · intro hlt hle
    simp only [hdf2silo_type]
    rw [if_neg (by omega), if_pos hle]
  · intro heq hle
    simp only [hdf2silo_type]
    rw [if_neg (by omega), if_pos hle]
  · intro hlt
    simp only [hdf2silo_type]
    rw [if_neg (by omega), if_neg (by omega)]

/-- Witness for `hdf2silo_type_amended` at the LP64 platform. -/
theorem hdf2silo_type_amended_witness :
    lp64.monotone ∧
    (hdf2silo_type lp64 false .integer 3 = hdf2silo_type lp64 true .integer 3 ∧
      hdf2silo_type lp64 false .integer 3 = some (intFirstFit lp64 3) ∧
      (3 ≤ lp64.longW → 3 ≤ memWidth lp64 (intFirstFit lp64 3)) ∧
      (∀ k ∈ intKinds, 3 ≤ memWidth lp64 k →
        memWidth lp64 (intFirstFit lp64 3) ≤ memWidth lp64 k) ∧
      (lp64.shortW = lp64.intW → intFirstFit lp64 3 ≠ SiloKind.DB_SHORT) ∧
      (lp64.longW < 3 → intFirstFit lp64 3 = SiloKind.DB_LONG) ∧
      (lp64.floatW ≠ lp64.doubleW → 3 ≤ lp64.floatW →
        hdf2silo_type lp64 false .float 3 = some SiloKind.DB_FLOAT) ∧
      (lp64.floatW < 3 → 3 ≤ lp64.doubleW →
        hdf2silo_type lp64 false .float 3 = some SiloKind.DB_DOUBLE) ∧
      (lp64.floatW = lp64.doubleW → 3 ≤ lp64.doubleW →
        hdf2silo_type lp64 false .float 3 = some SiloKind.DB_DOUBLE) ∧
      (lp64.doubleW < 3 → hdf2silo_type lp64 false .float 3 = none)) :=
  ⟨by decide, hdf2silo_type_amended lp64 false true .integer 3 (by decide)⟩

/-! ## Dataset read path (silo_hdf5.c:3929-4041 `db_hdf5_comprd`) -/

/-- Native HDF5 memory types chosen by `hdf2hdf_type`
(silo_hdf5.c:2851-2881): `H5T_NATIVE_UCHAR/SHORT/INT/LONG/FLOAT/DOUBLE`. -/
inductive MemType
  | uchar
  | short
  | int
  | long
  | float
  | double
deriving DecidableEq, Repr

/-- A dataset's contents as delivered by `H5Dread` at the natural memory
type chosen by `hdf2hdf_type(ftype)`: integer-class data as `Int` lists at
the inferred integer width, float-class data at float or double precision.
`D` and `F` are the carrier types of C `double` and `float` values, kept
abstract so no floating-point semantics is assumed. -/
inductive MemVals (D F : Type)
  | uchars (l : List Int)
  | shorts (l : List Int)
  | ints (l : List Int)
  | longs (l : List Int)
  | floats (l : List F)
  | doubles (l : List D)
deriving DecidableEq

/-- The natural memory type of stored data
(`mtype = hdf2hdf_type(ftype)`, silo_hdf5.c:3951). -/
def MemVals.mtype {D F : Type} : MemVals D F → MemType
  | .uchars _ => .uchar
  | .shorts _ => .short
  | .ints _ => .int
  | .longs _ => .long
  | .floats _ => .float
  | .doubles _ => .double

/-- The C scalar conversions `db_hdf5_comprd` can apply: the HDF5
double→float conversion requested via the memory type (silo_hdf5.c:3958)
and the explicit `(float)` casts of the conversion loops
(silo_hdf5.c:4001-4024). -/
structure Casts (D F : Type) where
  d2f : D → F
  c2f : Int → F
  s2f : Int → F
  i2f : Int → F
  l2f : Int → F

/-- Model of `H5Dread(d, mtype, ...)`: the container delivers the stored
values converted to the requested memory type.  `db_hdf5_comprd` requests
either the natural type (identity) or `float` for a `double` dataset
(element-wise double→float conversion); no other combination occurs. -/
def h5dread {D F : Type} (casts : Casts D F) (req : MemType)
    (content : MemVals D F) : MemVals D F :=
  match req, content with
  | .float, .doubles l => .floats (l.map casts.d2f)
  | _, c => c

/-- Embedding of `db_hdf5_comprd` (silo_hdf5.c:3929-4041), value part.
The name lookup, allocation and error paths are elided; `content` is the
stored dataset at its natural memory type, and the result is the buffer
the function returns.  Mirrors: the memory-type downgrade double→float
under force-single (lines 3956-3958), the raw read (line 3970), and the
explicit integer→float conversion loops (lines 3989-4029).  The source
loop has arms only for UCHAR/SHORT/INT/LONG; `floats` is excluded by the
guard `mtype != H5T_NATIVE_FLOAT` and `doubles` is unreachable because
the downgrade already replaced it, so those arms return the buffer
untouched. -/
def db_hdf5_comprd {D F : Type} (casts : Casts D F)
    (force_single_g ignore_force_single : Bool)
    (content : MemVals D F) : MemVals D F :=
  let mtype0 := content.mtype
  let mtype :=
    if mtype0 = .double ∧ force_single_g ∧ ¬ignore_force_single then
      MemType.float
    else mtype0
  let buf := h5dread casts mtype content
  if force_single_g ∧ ¬ignore_force_single ∧ mtype ≠ .float then
    match buf with
    | .uchars l => .floats (l.map casts.c2f)
    | .shorts l => .floats (l.map casts.s2f)
    | .ints l => .floats (l.map casts.i2f)
    | .longs l => .floats (l.map casts.l2f)
    | b => b
  else buf

/-- Identity instantiation of the casts over `D = F = Int`, used for
concrete evaluation. -/
def intCasts : Casts Int Int := ⟨id, id, id, id, id⟩

/-- C2 counterexample.  The claim "data whose natural memory type is not
double is returned unchanged in that natural type" fails: with
force-single active on the default path, an `int` dataset `[3]` is
returned as a `float` buffer (explicit conversion loop,
silo_hdf5.c:4013-4018), not unchanged as an `int` buffer. -/
theorem db_hdf5_comprd_force_single_ctex :
    db_hdf5_comprd intCasts true false (MemVals.ints [3]) =
      MemVals.floats [(3 : Int)] ∧
    MemVals.floats [(3 : Int)] ≠ MemVals.ints (D := Int) [3] := by
  decide

/-- C2 (amended).  On the default path with force-single active, every
read is returned as float: a double dataset is downcast element-wise
double→float during the read, and char/short/int/long data is converted
element-wise to float by explicit loops after the raw read; only data
already float is returned unchanged.  With `ignore_force_single` set, or
with force-single inactive, values are returned in their natural memory
type unchanged. -/
theorem db_hdf5_comprd_amended {D F : Type} (casts : Casts D F)
    (force ignore : Bool) (content : MemVals D F) :
    (ignore = true → db_hdf5_comprd casts force ignore content = content) ∧
    (force = false → db_hdf5_comprd casts force ignore content = content) ∧
    (force = true → ignore = false → ∀ l, content = .doubles l →
      db_hdf5_comprd casts force ignore content = .floats (l.map casts.d2f)) ∧
    (force = true → ignore = false → ∀ l, content = .floats l →
      db_hdf5_comprd casts force ignore content = content) ∧
    (force = true → ignore = false → ∀ l, content = .uchars l →
      db_hdf5_comprd casts force ignore content = .floats (l.map casts.c2f)) ∧
    (force = true → ignore = false → ∀ l, content = .shorts l →
      db_hdf5_comprd casts force ignore content = .floats (l.map casts.s2f)) ∧
    (force = true → ignore = false → ∀ l, content = .ints l →
      db_hdf5_comprd casts force ignore content = .floats (l.map casts.i2f)) ∧
    (force = true → ignore = false → ∀ l, content = .longs l →
      db_hdf5_comprd casts force ignore content = .floats (l.map casts.l2f)) := by
  cases force <;> cases ignore <;> cases content <;>
    simp [db_hdf5_comprd, h5dread, MemVals.mtype]

/-- Witness for `db_hdf5_comprd_amended`: a stored double array `[5]` read
with force-single active on the default path comes back as the float
array obtained by casting each double. -/
theorem db_hdf5_comprd_amended_witness :
    db_hdf5_comprd intCasts true false (MemVals.doubles [(5 : Int)]) =
      MemVals.floats (([(5 : Int)]).map intCasts.d2f) :=
  (db_hdf5_comprd_amended intCasts true false
    (MemVals.doubles [(5 : Int)])).2.2.1 rfl rfl [(5 : Int)] rfl

/-! ## C string helpers used by `db_hdf5_set_compression`
    (silo_hdf5.c:2904-3175) -/

/-- Model of `strstr(hay, pat)` composed with stepping past the matched
key: returns the remainder of `hay` after the first occurrence of `pat`
(the source always uses `ptr + strlen(key)`), or `none` when `pat` does
not occur. -/
def strstrAfter (pat : List Char) : List Char → Option (List Char)
  | [] => if pat.isEmpty then some [] else none
  | c :: rest =>
      if pat.isPrefixOf (c :: rest) then some ((c :: rest).drop pat.length)
      else strstrAfter pat rest

/-- Value of a decimal digit string. -/
def natOfDigits (ds : List Char) : Nat :=
  ds.foldl (fun a c => a * 10 + (c.toNat - 48)) 0

/-- The leading run of decimal digits, or `none` when there is none
(modelling `strtol`'s `check == start` failure). -/
def digitSeq (cs : List Char) : Option (List Char) :=
  let ds := cs.takeWhile Char.isDigit
  if ds.isEmpty then none else some ds

/-- Model of C `strtol(buf, &check, 10)` on the short copied buffer
`cs` (the source never sets a terminator inside the copied window, so the
window itself is the buffer).  `none` models `check == buf`: no digits
were consumed. -/
def strtol (cs : List Char) : Option Int :=
  match cs.dropWhile Char.isWhitespace with
  | '-' :: r => (digitSeq r).map fun ds => -(natOfDigits ds : Int)
  | '+' :: r => (digitSeq r).map fun ds => (natOfDigits ds : Int)
  | r => (digitSeq r).map fun ds => (natOfDigits ds : Int)

/-- Model of C `strtod` on the short copied buffer, for the decimal forms
(`[+-]digits[.digits][e[+-]digits]`) a compression string can carry;
`inf`/`nan`/hex floats are not modelled.  The value is kept as an exact
rational; every decimal of at most 5 characters compares with 1 the same
way its `float` image does, which is all `db_hdf5_set_compression` asks
of it.  `none` models "no conversion performed" (C result 0.0). -/
def strtodQ (cs : List Char) : Option ℚ :=
  let cs1 := cs.dropWhile Char.isWhitespace
  let sgn : Bool × List Char :=
    match cs1 with
    | '-' :: r => (true, r)
    | '+' :: r => (false, r)
    | r => (false, r)
  let ip := sgn.2.takeWhile Char.isDigit
  let cs3 := sgn.2.drop ip.length
  let frac : List Char × List Char :=
    match cs3 with
    | '.' :: r => (r.takeWhile Char.isDigit, r.drop (r.takeWhile Char.isDigit).length)
    | r => ([], r)
  if ip.isEmpty ∧ frac.1.isEmpty then none
  else
    let mant : ℚ :=
      (natOfDigits ip : ℚ) + (natOfDigits frac.1 : ℚ) / (10 : ℚ) ^ frac.1.length
    let ex : Int :=
      match frac.2 with
      | c :: r =>
          if c = 'e' ∨ c = 'E' then
            match r with
            | '-' :: r2 =>
                (match r2.takeWhile Char.isDigit with
                 | [] => 0
                 | ds => -(natOfDigits ds : Int))
            | '+' :: r2 =>
                (match r2.takeWhile Char.isDigit with
                 | [] => 0
                 | ds => (natOfDigits ds : Int))
            | r2 =>
                (match r2.takeWhile Char.isDigit with
                 | [] => 0
                 | ds => (natOfDigits ds : Int))
          else 0
      | [] => 0
    some ((if sgn.1 then -mant else mant) * (10 : ℚ) ^ ex)

/-! ## Compression configuration (silo_hdf5.c:2904-3175
    `db_hdf5_set_compression`) -/

/-- Silo error kinds raised through `db_perror` (E_COMPRESSION,
E_BADARGS, ...). -/
inductive ErrKind
  | E_COMPRESSION
  | E_BADARGS
  | E_CALLFAIL
  | E_NOTFOUND
  | E_NOMEM
deriving DecidableEq, Repr

/-- An error reported through `db_perror(msg, kind, me)`. -/
structure SiloError where
  kind : ErrKind
  msg : String
deriving DecidableEq, Repr

/-- Compression error modes; `COMPRESSION_ERRMODE_FALLBACK = 0` and
`COMPRESSION_ERRMODE_FAIL = 1` (silo_hdf5.c:175-176), so the C test
`SILO_Compression.errmode ? 0 : H5Z_FLAG_OPTIONAL` registers a filter as
optional exactly in FALLBACK mode. -/
inductive ErrMode
  | FALLBACK
  | FAIL
deriving DecidableEq, Repr

/-- SZIP option masks (`H5_SZIP_EC_OPTION_MASK` / `H5_SZIP_NN_OPTION_MASK`). -/
inductive SzMask
  | EC
  | NN
deriving DecidableEq, Repr

/-- HZIP entropy codecs (`HZM_CODEC_ZLIB` / `HZM_CODEC_BASE`). -/
inductive HzCodec
  | zlib
  | base
deriving DecidableEq, Repr

/-- The compression-relevant globals written by `db_hdf5_set_compression`:
`SILO_Compression.errmode`, `SILO_Compression.minratio`, the filters added
to the `P_ckcrprops` property list (deflate level, szip mask/block, the
HZIP and FPZIP driver filters with their optional-flag), and the codec
parameter slots.  For the two driver filters `some b` records a call
`H5Pset_filter(..., b ? H5Z_FLAG_OPTIONAL : 0, ...)` with `b` true when
the filter was registered as optional. -/
structure CompConfig where
  errmode : ErrMode
  minratio : ℚ
  deflateLevel : Option Int
  szip : Option (SzMask × Int)
  hzipCodec : HzCodec
  hzipBits : Int
  fpzipLoss : Int
  hzipFilterOptional : Option Bool
  fpzipFilterOptional : Option Bool
deriving DecidableEq, Repr

/-- A fresh configuration: FALLBACK error mode, no filters registered. -/
def defaultCompConfig : CompConfig :=
  ⟨.FALLBACK, 2, none, none, .base, 12, 0, none, none⟩

/-- The ERRMODE block (silo_hdf5.c:2941-2955): 4 characters are copied
after `ERRMODE=` and compared with `"FALL"` and `"FAIL"`. -/
def errmodeStep (params : String) (m : ErrMode) : Except SiloError ErrMode :=
  match strstrAfter "ERRMODE=".toList params.toList with
  | none => .ok m
  | some rest =>
      let ca := rest.take 4
      if ca = "FALL".toList then .ok .FALLBACK
      else if ca = "FAIL".toList then .ok .FAIL
      else .error ⟨.E_COMPRESSION, params⟩

/-- The MINRATIO block (silo_hdf5.c:2956-2969): 5 characters are copied
after `MINRATIO=` and run through `strtod`; the value is accepted only
when strictly greater than 1 (an unparsable buffer yields 0.0 and is
rejected the same way). -/
def minratioStep (params : String) (r : ℚ) : Except SiloError ℚ :=
  match strstrAfter "MINRATIO=".toList params.toList with
  | none => .ok r
  | some rest =>
      let mcr := (strtodQ (rest.take 5)).getD 0
      if 1 < mcr then .ok mcr else .error ⟨.E_COMPRESSION, params⟩

/-- The METHOD=GZIP block (silo_hdf5.c:2972-3005): skipped entirely when
a deflate filter is already registered; otherwise a single character is
copied after `LEVEL=` and, when it parses as a digit, `H5Pset_deflate`
is called with it (default level 1 without a LEVEL key). -/
def gzipBranch (params : String) (have_gzip : Bool) (cfg : CompConfig) :
    Except SiloError CompConfig :=
  if have_gzip then .ok cfg
  else
    match strstrAfter "LEVEL=".toList params.toList with
    | some rest =>
        match strtol (rest.take 1) with
        | some level =>
            if 0 ≤ level ∧ level ≤ 9 then
              .ok { cfg with deflateLevel := some level }
            else .error ⟨.E_COMPRESSION, params⟩
        | none => .error ⟨.E_COMPRESSION, params⟩
    | none => .ok { cfg with deflateLevel := some 1 }

/-- The SZIP mask selection (silo_hdf5.c:3029-3057): `MASK=EC` selects
the EC option mask; both `MASK=NN` and the no-mask default select NN. -/
def szMaskOf (params : String) : SzMask :=
  if (strstrAfter "MASK=EC".toList params.toList).isSome then .EC else .NN

/-- The METHOD=SZIP block (silo_hdf5.c:3007-3075): the encode/decode
capability check is assumed to pass; two characters are copied after
`BLOCK=` (range 0-32); without a BLOCK key the default is NN mask with
block 4. -/
def szipBranch (params : String) (have_szip : Bool) (cfg : CompConfig) :
    Except SiloError CompConfig :=
  if have_szip then .ok cfg
  else
    match strstrAfter "BLOCK=".toList params.toList with
    | some rest =>
        match strtol (rest.take 2) with
        | some block =>
            if 0 ≤ block ∧ block ≤ 32 then
              .ok { cfg with szip := some (szMaskOf params, block) }
            else .error ⟨.E_COMPRESSION, params⟩
        | none => .error ⟨.E_COMPRESSION, params⟩
    | none => .ok { cfg with szip := some (SzMask.NN, 4) }

/-- The CODEC= sub-block of METHOD=HZIP (silo_hdf5.c:3083-3106): four
characters compared with `"zlib"` and `"base"`. -/
def hzipCodecStep (params : String) (cfg : CompConfig) :
    Except SiloError HzCodec :=
  match strstrAfter "CODEC=".toList params.toList with
  | none => .ok cfg.hzipCodec
  | some rest =>
      if rest.take 4 = "zlib".toList then .ok .zlib
      else if rest.take 4 = "base".toList then .ok .base
      else .error ⟨.E_COMPRESSION, "hzip codec not recongized"⟩

/-- The METHOD=HZIP block (silo_hdf5.c:3078-3136): runs only when the
filter is absent and mesh compression is allowed; CODEC and BITS
sub-blocks, then `H5Pset_filter(DB_HDF5_HZIP_ID, errmode ? 0 :
H5Z_FLAG_OPTIONAL, ...)`. -/
def hzipBranch (params : String) (allowMesh have_hzip : Bool)
    (em : ErrMode) (cfg : CompConfig) : Except SiloError CompConfig :=
  if ¬have_hzip ∧ allowMesh then
    match hzipCodecStep params cfg with
    | .error e => .error e
    | .ok codec =>
        match strstrAfter "BITS=".toList params.toList with
        | none =>
            .ok { cfg with hzipCodec := codec,
                           hzipFilterOptional := some (em = .FALLBACK) }
        | some rest =>
            match strtol (rest.take 2) with
            | some nbits =>
                if 0 ≤ nbits ∧ nbits ≤ 64 then
                  .ok { cfg with hzipCodec := codec, hzipBits := nbits,
                                 hzipFilterOptional := some (em = .FALLBACK) }
                else .error ⟨.E_COMPRESSION, "invalid nbits for hzip"⟩
            | none => .error ⟨.E_COMPRESSION, "invalid nbits for hzip"⟩
  else .ok cfg

/-- The METHOD=FPZIP block (silo_hdf5.c:3139-3167): two characters are
copied after `LOSS=` (range 0-3), then `H5Pset_filter(DB_HDF5_FPZIP_ID,
errmode ? 0 : H5Z_FLAG_OPTIONAL, ...)`. -/
def fpzipBranch (params : String) (have_fpzip : Bool)
    (em : ErrMode) (cfg : CompConfig) : Except SiloError CompConfig :=
  if have_fpzip then .ok cfg
  else
    match strstrAfter "LOSS=".toList params.toList with
    | none => .ok { cfg with fpzipFilterOptional := some (em = .FALLBACK) }
    | some rest =>
        match strtol (rest.take 2) with
        | some prec =>
            if 0 ≤ prec ∧ prec ≤ 3 then
              .ok { cfg with fpzipLoss := prec,
                             fpzipFilterOptional := some (em = .FALLBACK) }
            else .error ⟨.E_COMPRESSION, params⟩
        | none => .error ⟨.E_COMPRESSION, params⟩

/-- The METHOD selection chain (silo_hdf5.c:2971-3173).  `have_*` mirror
the `H5Pget_nfilters`/`H5Pget_filter` prelude (lines 2915-2939) reporting
which filters are already on the property list; `allowMesh` is
`flags & ALLOW_MESH_COMPRESSION`; the `H5Pset_*` container calls are
assumed to succeed.  `em` is the error mode already updated by the
ERRMODE block, which decides the optional-flag of the HZIP/FPZIP filter
registrations. -/
def methodStep (params : String) (allowMesh : Bool)
    (have_gzip have_szip have_hzip have_fpzip : Bool)
    (em : ErrMode) (cfg : CompConfig) : Except SiloError CompConfig :=
  if (strstrAfter "METHOD=GZIP".toList params.toList).isSome then
    gzipBranch params have_gzip cfg
  else if (strstrAfter "METHOD=SZIP".toList params.toList).isSome then
    szipBranch params have_szip cfg
  else if (strstrAfter "METHOD=HZIP".toList params.toList).isSome then
    hzipBranch params allowMesh have_hzip em cfg
  else if (strstrAfter "METHOD=FPZIP".toList params.toList).isSome then
    fpzipBranch params have_fpzip em cfg
  else .error ⟨.E_COMPRESSION, params⟩

/-- Embedding of `db_hdf5_set_compression` (silo_hdf5.c:2904-3175): the
ERRMODE block, then the MINRATIO block, then the METHOD chain.  `.error`
models the C return value `-1` together with the `db_perror` report;
`.ok` models return 0 with the updated globals.  All optional features
(SZIP, HZIP, FPZIP) are taken as compiled in. -/
def db_hdf5_set_compression (allowMesh : Bool)
    (have_gzip have_szip have_hzip have_fpzip : Bool)
    (params : String) (cfg : CompConfig) : Except SiloError CompConfig :=
  match errmodeStep params cfg.errmode with
  | .error e => .error e
  | .ok em =>
      match minratioStep params cfg.minratio with
      | .error e => .error e
      | .ok mr =>
          methodStep params allowMesh have_gzip have_szip have_hzip
            have_fpzip em { cfg with errmode := em, minratio := mr }

/-- Either the ERRMODE block rejects the string with an E_COMPRESSION
report naming it, or it yields some mode. -/
theorem errmodeStep_cases (params : String) (m : ErrMode) :
    errmodeStep params m = .error ⟨.E_COMPRESSION, params⟩ ∨
      ∃ em, errmodeStep params m = .ok em := by
  unfold errmodeStep
  cases strstrAfter "ERRMODE=".toList params.toList with
  | none => exact .inr ⟨m, rfl⟩
  | some rest =>
      simp only
      split_ifs <;> first
        | exact .inr ⟨_, rfl⟩
        | exact .inl rfl

/-- Either the MINRATIO block rejects the string with an E_COMPRESSION
report naming it, or it yields some ratio. -/
theorem minratioStep_cases (params : String) (r : ℚ) :
    minratioStep params r = .error ⟨.E_COMPRESSION, params⟩ ∨
      ∃ mr, minratioStep params r = .ok mr := by
  unfold minratioStep
  cases strstrAfter "MINRATIO=".toList params.toList with
  | none => exact .inr ⟨r, rfl⟩
  | some rest =>
      simp only
      split_ifs <;> first
        | exact .inr ⟨_, rfl⟩
        | exact .inl rfl

/-- Unfolding lemma: a rejection by the ERRMODE block is the whole
call's rejection. -/
theorem set_compression_err_errmode
    (params : String) (allowMesh hg hs hh hf : Bool) (cfg : CompConfig)
    (e : SiloError) (h : errmodeStep params cfg.errmode = .error e) :
    db_hdf5_set_compression allowMesh hg hs hh hf params cfg = .error e := by
  unfold db_hdf5_set_compression
  rw [h]

/-- Unfolding lemma: a rejection by the MINRATIO block is the whole
call's rejection. -/
theorem set_compression_err_minratio
    (params : String) (allowMesh hg hs hh hf : Bool) (cfg : CompConfig)
    (em : ErrMode) (e : SiloError)
    (he : errmodeStep params cfg.errmode = .ok em)
    (h : minratioStep params cfg.minratio = .error e) :
    db_hdf5_set_compression allowMesh hg hs hh hf params cfg = .error e := by
  unfold db_hdf5_set_compression
  rw [he, h]

/-- Unfolding lemma: with ERRMODE and MINRATIO accepted, the call is the
METHOD chain on the updated configuration. -/
theorem set_compression_via_method
    (params : String) (allowMesh hg hs hh hf : Bool) (cfg : CompConfig)
    (em : ErrMode) (mr : ℚ)
    (he : errmodeStep params cfg.errmode = .ok em)
    (hm : minratioStep params cfg.minratio = .ok mr) :
    db_hdf5_set_compression allowMesh hg hs hh hf params cfg =
      methodStep params allowMesh hg hs hh hf em
        { cfg with errmode := em, minratio := mr } := by
  unfold db_hdf5_set_compression
  rw [he, hm]

/-- C7 counterexample.  The claim fails in two ways.  (a) The string
`"METHOD=GZIP LEVEL=12"` carries a GZIP LEVEL of 12, outside 0-9, yet
configuration succeeds: the source copies a single character after
`LEVEL=` (silo_hdf5.c:2980), so the level parses as 1 and
`H5Pset_deflate` is called.  (b) A string with no recognized METHOD does
fail, but the report is an E_COMPRESSION error (silo_hdf5.c:3171), not
BadArgs. -/
theorem db_hdf5_set_compression_ctex :
    db_hdf5_set_compression true false false false false
        "METHOD=GZIP LEVEL=12" defaultCompConfig =
      .ok { defaultCompConfig with deflateLevel := some 1 } ∧
    (strstrAfter "LEVEL=".toList "METHOD=GZIP LEVEL=12".toList).map
        (fun r => natOfDigits (r.takeWhile Char.isDigit)) = some 12 ∧
    ¬ (12 : Nat) ≤ 9 ∧
    db_hdf5_set_compression true false false false false
        "METHOD=NONE" defaultCompConfig =
      .error ⟨.E_COMPRESSION, "METHOD=NONE"⟩ ∧
    ErrKind.E_COMPRESSION ≠ ErrKind.E_BADARGS := by
  exact ⟨rfl, rfl, by decide, rfl, by decide⟩

/-- C7 (amended).  `db_hdf5_set_compression` returns -1 and reports an
E_COMPRESSION error (not BadArgs) naming the parameter string whenever:
the 4-character ERRMODE field is neither `FALL` nor `FAIL`; the
5-character MINRATIO field parses to a value at most 1 (or fails to
parse, yielding 0); METHOD=GZIP is selected, gzip is not yet registered
and the single examined LEVEL character is not a digit (a multi-digit
LEVEL is silently truncated to its first digit, so a level outside 0-9
never reaches the range test); METHOD=FPZIP is selected (no earlier
method matching), fpzip is not yet registered and the two-character LOSS
field fails to parse or parses outside 0-3; or no recognized METHOD
occurs in the string. -/
theorem db_hdf5_set_compression_amended
    (params : String)
    (allowMesh have_gzip have_szip have_hzip have_fpzip : Bool)
    (cfg : CompConfig)
    (hbad :
      (∃ rest, strstrAfter "ERRMODE=".toList params.toList = some rest ∧
        rest.take 4 ≠ "FALL".toList ∧ rest.take 4 ≠ "FAIL".toList) ∨
      (∃ rest, strstrAfter "MINRATIO=".toList params.toList = some rest ∧
        (strtodQ (rest.take 5)).getD 0 ≤ 1) ∨
      ((strstrAfter "METHOD=GZIP".toList params.toList).isSome ∧
        have_gzip = false ∧
        ∃ rest, strstrAfter "LEVEL=".toList params.toList = some rest ∧
          strtol (rest.take 1) = none) ∨
      (strstrAfter "METHOD=GZIP".toList params.toList = none ∧
        strstrAfter "METHOD=SZIP".toList params.toList = none ∧
        strstrAfter "METHOD=HZIP".toList params.toList = none ∧
        (strstrAfter "METHOD=FPZIP".toList params.toList).isSome ∧
        have_fpzip = false ∧
        ∃ rest, strstrAfter "LOSS=".toList params.toList = some rest ∧
          (strtol (rest.take 2) = none ∨
            ∃ v, strtol (rest.take 2) = some v ∧ (v < 0 ∨ 3 < v))) ∨
      (strstrAfter "METHOD=GZIP".toList params.toList = none ∧
        strstrAfter "METHOD=SZIP".toList params.toList = none ∧
        strstrAfter "METHOD=HZIP".toList params.toList = none ∧
        strstrAfter "METHOD=FPZIP".toList params.toList = none)) :
    db_hdf5_set_compression allowMesh have_gzip have_szip have_hzip
      have_fpzip params cfg = .error ⟨.E_COMPRESSION, params⟩ := by
  rcases hbad with ⟨rest, hr, h1, h2⟩ | ⟨rest, hr, hle⟩ | h | h | h
  · refine set_compression_err_errmode _ _ _ _ _ _ _ _ ?_
    unfold errmodeStep
    rw [hr]
    simp only [if_neg h1, if_neg h2]
  · rcases errmodeStep_cases params cfg.errmode with he | ⟨em, he⟩
    · exact set_compression_err_errmode _ _ _ _ _ _ _ _ he
    · refine set_compression_err_minratio _ _ _ _ _ _ _ _ _ he ?_
      unfold minratioStep
      rw [hr]
      simp only [if_neg (not_lt.mpr hle)]
  · obtain ⟨hg, hng, rest, hr, hnone⟩ := h
    rcases errmodeStep_cases params cfg.errmode with he | ⟨em, he⟩
    · exact set_compression_err_errmode _ _ _ _ _ _ _ _ he
    · rcases minratioStep_cases params cfg.minratio with hm | ⟨mr, hm⟩
      · exact set_compression_err_minratio _ _ _ _ _ _ _ _ _ he hm
      · rw [set_compression_via_method _ _ _ _ _ _ _ _ _ he hm]
        unfold methodStep gzipBranch
        simp only [hg, hng, hr, hnone, if_true, Bool.false_eq_true, if_false]
  · obtain ⟨hg, hs, hh, hf, hnf, rest, hr, hbadloss⟩ := h
    rcases errmodeStep_cases params cfg.errmode with he | ⟨em, he⟩
    · exact set_compression_err_errmode _ _ _ _ _ _ _ _ he
    · rcases minratioStep_cases params cfg.minratio with hm | ⟨mr, hm⟩
      · exact set_compression_err_minratio _ _ _ _ _ _ _ _ _ he hm
      · rw [set_compression_via_method _ _ _ _ _ _ _ _ _ he hm]
        unfold methodStep fpzipBranch
        rcases hbadloss with hn | ⟨v, hv, hout⟩
        · simp only [hg, hs, hh, hf, hnf, hr, hn, Option.isSome_none,
            Bool.false_eq_true, if_false, if_true]
        · simp only [hg, hs, hh, hf, hnf, hr, hv, Option.isSome_none,
            Bool.false_eq_true, if_false, if_true]
          rw [if_neg (by omega : ¬(0 ≤ v ∧ v ≤ 3))]
  · obtain ⟨hg, hs, hh, hf⟩ := h
    rcases errmodeStep_cases params cfg.errmode with he | ⟨em, he⟩
    · exact set_compression_err_errmode _ _ _ _ _ _ _ _ he
    · rcases minratioStep_cases params cfg.minratio with hm | ⟨mr, hm⟩
      · exact set_compression_err_minratio _ _ _ _ _ _ _ _ _ he hm
      · rw [set_compression_via_method _ _ _ _ _ _ _ _ _ he hm]
        unfold methodStep
        simp only [hg, hs, hh, hf, Option.isSome_none, Bool.false_eq_true,
          if_false]

/-- Witness for `db_hdf5_set_compression_amended`: the string
`"METHOD=FPZIP LOSS=9"` (LOSS outside 0-3) is rejected with an
E_COMPRESSION report naming it. -/
theorem db_hdf5_set_compression_amended_witness :
    db_hdf5_set_compression true false false false false
        "METHOD=FPZIP LOSS=9" defaultCompConfig =
      .error ⟨.E_COMPRESSION, "METHOD=FPZIP LOSS=9"⟩ :=
  db_hdf5_set_compression_amended "METHOD=FPZIP LOSS=9"
    true false false false false defaultCompConfig
    (.inr (.inr (.inr (.inl
      ⟨rfl, rfl, rfl, rfl, rfl, "9".toList, rfl,
        .inr ⟨9, rfl, .inr (by decide)⟩⟩))))

/-! ## FPZIP filter write path (silo_hdf5.c:915-1008
    `db_hdf5_fpzip_filter_op`, write half) -/

/-- Observable behavior of one invocation of the write half of the FPZIP
filter callback: the output-buffer bound handed to `fpzip_memory_write`
(`none` when the codec is never called, i.e. non-floating-point data),
and the callback's return value (0 = compression abandoned). -/
structure FpzipWriteTrace where
  maxOutGiven : Option Nat
  retBytes : Nat
deriving DecidableEq, Repr

/-- Embedding of the write case of `db_hdf5_fpzip_filter_op`
(silo_hdf5.c:948-1007).  `nbytes` is the uncompressed byte count from
HDF5; `minratio` is `SILO_Compression.minratio`; `isfp` is
`db_hdf5_fpzip_params.isfp`.  `codecBytes` abstracts `fpzip_memory_write`
per the source's own contract (comment at lines 957-964): the codec
compresses into any buffer we pass and fails (returns 0) exactly when its
output cannot fit.  The C expression `nbytes / SILO_Compression.minratio`
divides a `size_t` by a `float` and truncates the quotient back to `int`;
it is modelled as the rational floor. -/
def db_hdf5_fpzip_filter_op_write (minratio : ℚ) (isfp : Bool)
    (nbytes codecBytes : Nat) : FpzipWriteTrace :=
  if ¬isfp then ⟨none, 0⟩
  else
    let max_outbytes := (⌊(nbytes : ℚ) / minratio⌋).toNat
    let outbytes :=
      if codecBytes ≠ 0 ∧ codecBytes ≤ max_outbytes then codecBytes else 0
    if outbytes = 0 then ⟨some max_outbytes, 0⟩
    else ⟨some max_outbytes, outbytes⟩

/-- Modelled from the spec: the container format's filter pipeline (HDF5
itself, outside this repository).  A data-transform filter registered
with `H5Z_FLAG_OPTIONAL` that returns 0 is skipped, the chunk is stored
uncompressed and the write still succeeds; a mandatory filter returning 0
makes the whole write fail.  `some true` = stored compressed,
`some false` = stored uncompressed, `none` = the write fails. -/
def h5zPipelineWrite (optional : Bool) (retBytes : Nat) : Option Bool :=
  if retBytes ≠ 0 then some true
  else if optional then some false
  else none

/-- The GZIP block never touches the FPZIP registration or the error
mode. -/
theorem gzipBranch_frame (params : String) (hg : Bool)
    (cfg cfg' : CompConfig) (h : gzipBranch params hg cfg = .ok cfg') :
    cfg'.fpzipFilterOptional = cfg.fpzipFilterOptional ∧
      cfg'.errmode = cfg.errmode := by
  unfold gzipBranch at h
  repeat' split at h
  all_goals first
    | exact Except.noConfusion h
    | (injection h with h2; subst h2; exact ⟨rfl, rfl⟩)

/-- The SZIP block never touches the FPZIP registration or the error
mode. -/
theorem szipBranch_frame (params : String) (hs : Bool)
    (cfg cfg' : CompConfig) (h : szipBranch params hs cfg = .ok cfg') :
    cfg'.fpzipFilterOptional = cfg.fpzipFilterOptional ∧
      cfg'.errmode = cfg.errmode := by
  unfold szipBranch at h
  repeat' split at h
  all_goals first
    | exact Except.noConfusion h
    | (injection h with h2; subst h2; exact ⟨rfl, rfl⟩)

/-- The HZIP block never touches the FPZIP registration or the error
mode. -/
theorem hzipBranch_frame (params : String) (allowMesh hh : Bool)
    (em : ErrMode) (cfg cfg' : CompConfig)
    (h : hzipBranch params allowMesh hh em cfg = .ok cfg') :
    cfg'.fpzipFilterOptional = cfg.fpzipFilterOptional ∧
      cfg'.errmode = cfg.errmode := by
  unfold hzipBranch at h
  repeat' split at h
  all_goals first
    | exact Except.noConfusion h
    | (injection h with h2; subst h2; exact ⟨rfl, rfl⟩)

/-- The FPZIP block either leaves the FPZIP registration alone or
registers it with the optional-flag decided by the current error mode;
it never changes the error mode itself. -/
theorem fpzipBranch_registration (params : String) (hf : Bool)
    (em : ErrMode) (cfg cfg' : CompConfig)
    (h : fpzipBranch params hf em cfg = .ok cfg') :
    (cfg'.fpzipFilterOptional = cfg.fpzipFilterOptional ∨
      cfg'.fpzipFilterOptional = some (decide (em = ErrMode.FALLBACK))) ∧
    cfg'.errmode = cfg.errmode := by
  unfold fpzipBranch at h
  repeat' split at h
  all_goals first
    | exact Except.noConfusion h
    | (injection h with h2; subst h2; exact ⟨.inl rfl, rfl⟩)
    | (injection h with h2; subst h2; exact ⟨.inr rfl, rfl⟩)

/-- Any FPZIP filter registration performed by `db_hdf5_set_compression`
on a fresh property list is optional exactly when the (updated) error
mode is FALLBACK (`SILO_Compression.errmode ? 0 : H5Z_FLAG_OPTIONAL`,
silo_hdf5.c:3160-3161). -/
theorem set_compression_fpzip_optional
    (params : String) (allowMesh hg hs hh hf : Bool)
    (cfg cfg' : CompConfig)
    (hfresh : cfg.fpzipFilterOptional = none)
    (hok : db_hdf5_set_compression allowMesh hg hs hh hf params cfg =
      .ok cfg') :
    ∀ b, cfg'.fpzipFilterOptional = some b →
      (b = true ↔ cfg'.errmode = ErrMode.FALLBACK) := by
  intro b hb
  cases he : errmodeStep params cfg.errmode with
  | error e =>
      rw [set_compression_err_errmode _ _ _ _ _ _ _ _ he] at hok
      exact absurd hok (by simp)
  | ok em =>
      cases hm : minratioStep params cfg.minratio with
      | error e =>
          rw [set_compression_err_minratio _ _ _ _ _ _ _ _ _ he hm] at hok
          exact Except.noConfusion hok
      | ok mr =>
          rw [set_compression_via_method _ _ _ _ _ _ _ _ _ he hm] at hok
          unfold methodStep at hok
          split at hok
          · obtain ⟨hfp, _⟩ := gzipBranch_frame _ _ _ _ hok
            rw [hfp] at hb
            simp [hfresh] at hb
          · split at hok
            · obtain ⟨hfp, _⟩ := szipBranch_frame _ _ _ _ hok
              rw [hfp] at hb
              simp [hfresh] at hb
            · split at hok
              · obtain ⟨hfp, _⟩ := hzipBranch_frame _ _ _ _ _ _ hok
                rw [hfp] at hb
                simp [hfresh] at hb
              · split at hok
                · obtain ⟨hfp | hfp, herr⟩ :=
                    fpzipBranch_registration _ _ _ _ _ hok
                  · rw [hfp] at hb
                    simp [hfresh] at hb
                  · rw [hfp] at hb
                    injection hb with hb2
                    subst hb2
                    rw [herr]
                    simp
                · exact Except.noConfusion hok

/-- C3.  For every FPZIP-filtered write of floating-point data, the codec
is handed an output buffer bound of exactly `uncompressedSize / minratio`
(C integer truncation of the float quotient); whenever the achievable
compressed size cannot fit that bound (or is 0), the callback returns 0,
abandoning compression of that one array.  Any FPZIP registration made by
`db_hdf5_set_compression` on a fresh property list is optional exactly
when the error mode is FALLBACK, and the container's pipeline turns a
0-returning optional filter into an uncompressed but successful store
while a 0-returning mandatory filter fails the whole write. -/
theorem db_hdf5_fpzip_sizing_errmode
    (minratio : ℚ) (nbytes codecBytes : Nat)
    (params : String) (allowMesh hg hs hh hf : Bool) (cfg cfg' : CompConfig)
    (hfresh : cfg.fpzipFilterOptional = none)
    (hok : db_hdf5_set_compression allowMesh hg hs hh hf params cfg =
      .ok cfg') :
    (db_hdf5_fpzip_filter_op_write minratio true nbytes codecBytes).maxOutGiven
        = some (⌊(nbytes : ℚ) / minratio⌋).toNat ∧
    (codecBytes = 0 ∨ (⌊(nbytes : ℚ) / minratio⌋).toNat < codecBytes →
      (db_hdf5_fpzip_filter_op_write minratio true nbytes
        codecBytes).retBytes = 0) ∧
    (∀ b, cfg'.fpzipFilterOptional = some b →
      (b = true ↔ cfg'.errmode = ErrMode.FALLBACK)) ∧
    h5zPipelineWrite true 0 = some false ∧
    h5zPipelineWrite false 0 = none := by
  refine ⟨?_, ?_,
    set_compression_fpzip_optional _ _ _ _ _ _ _ _ hfresh hok, rfl, rfl⟩
  · simp only [db_hdf5_fpzip_filter_op_write, not_true_eq_false, if_false]
    split_ifs <;> rfl
  · intro hcant
    have h1 : ¬(codecBytes ≠ 0 ∧
        codecBytes ≤ (⌊(nbytes : ℚ) / minratio⌋).toNat) := by
      rcases hcant with h0 | hbig
      · simp [h0]
      · rintro ⟨hne, hle⟩
        omega
    simp [db_hdf5_fpzip_filter_op_write, h1]

/-- Witness for `db_hdf5_fpzip_sizing_errmode`: minratio 2, a 100-byte
payload (bound 50), an achievable compressed size of 60 that cannot fit,
and a FAIL-mode FPZIP configuration registered mandatory. -/
theorem db_hdf5_fpzip_sizing_errmode_witness :
    (db_hdf5_fpzip_filter_op_write 2 true 100 60).maxOutGiven =
      some (⌊(100 : ℚ) / 2⌋).toNat ∧
    (60 = 0 ∨ (⌊(100 : ℚ) / 2⌋).toNat < 60 →
      (db_hdf5_fpzip_filter_op_write 2 true 100 60).retBytes = 0) ∧
    (∀ b,
      (CompConfig.mk .FAIL 2 none none .base 12 0 none
        (some false)).fpzipFilterOptional = some b →
      (b = true ↔
        (CompConfig.mk .FAIL 2 none none .base 12 0 none
          (some false)).errmode = ErrMode.FALLBACK)) ∧
    h5zPipelineWrite true 0 = some false ∧
    h5zPipelineWrite false 0 = none :=
  db_hdf5_fpzip_sizing_errmode 2 100 60 "ERRMODE=FAIL METHOD=FPZIP"
    true false false false false defaultCompConfig
    (CompConfig.mk .FAIL 2 none none .base 12 0 none (some false))
    rfl rfl

/-! ## Nodelist cache (silo_hdf5.c:1025-1170: `MAX_NODELIST_INFOS`,
    `LookupNodelist`, `RegisterNodelist`; silo_hdf5.c:4096-4109
    `db_hdf5_fullname`) -/

/-- Capacity of the nodelist cache (silo_hdf5.c:1025). -/
def MAX_NODELIST_INFOS : Nat := 32

/-- Zone shape types recorded by `RegisterNodelist`
(`DB_ZONETYPE_QUAD` / `DB_ZONETYPE_HEX`). -/
inductive ZoneType
  | quad
  | hex
deriving DecidableEq, Repr

/-- The `DBzonelist` fields populated by `RegisterNodelist`
(silo_hdf5.c:1093-1105). -/
structure DBzonelist where
  ndims : Nat
  nzones : Nat
  nshapes : Nat
  origin : Int
  shapecnt : List Nat
  shapetype : List ZoneType
  shapesize : List Nat
  lnodelist : Nat
  nodelist : List Int
deriving DecidableEq, Repr

/-- One occupied cache slot (`zlInfo_t`, silo_hdf5.c:1026-1031): owning
file (identified by its handle), the optional absolute zonelist and mesh
names, and the cached connectivity.  A free slot (`zl == 0`) is `none` in
the cache list. -/
structure ZLInfo where
  db5file : Nat
  zlname : Option String
  meshname : Option String
  zl : DBzonelist
deriving DecidableEq, Repr

/-- Embedding of `db_hdf5_fullname` (silo_hdf5.c:4096-4109) with the
file's current working directory `cwg` passed explicitly: an empty name
stays empty, an absolute name is copied, and a relative name is appended
to `cwg` with a separating slash unless `cwg` is the root. -/
def db_hdf5_fullname (cwg : String) (name : String) : String :=
  if name = "" then ""
  else if name.toList.head? = some '/' then name
  else (if cwg = "/" then cwg else cwg ++ "/") ++ name

/-- The zonelist-key test of `LookupNodelist` (silo_hdf5.c:1052-1053):
a supplied zonelist name, resolved to absolute form, against the entry's
recorded zonelist name when present. -/
def entryMatchZl (cwg : String) (zlname : Option String) (e : ZLInfo) :
    Bool :=
  match zlname, e.zlname with
  | some zn, some ezn => db_hdf5_fullname cwg zn == ezn
  | _, _ => false

/-- The mesh-key test of `LookupNodelist` (silo_hdf5.c:1059-1060). -/
def entryMatchMesh (cwg : String) (meshname : Option String) (e : ZLInfo) :
    Bool :=
  match meshname, e.meshname with
  | some mn, some emn => db_hdf5_fullname cwg mn == emn
  | _, _ => false

/-- The opportunistic backfill on a zonelist-key match
(silo_hdf5.c:1055-1056): a supplied mesh name is recorded on the entry
when the entry has none. -/
def backfillMesh (cwg : String) (meshname : Option String) (e : ZLInfo) :
    ZLInfo :=
  match meshname, e.meshname with
  | some mn, none => { e with meshname := some (db_hdf5_fullname cwg mn) }
  | _, _ => e

/-- The opportunistic backfill on a mesh-key match
(silo_hdf5.c:1062-1063). -/
def backfillZl (cwg : String) (zlname : Option String) (e : ZLInfo) :
    ZLInfo :=
  match zlname, e.zlname with
  | some zn, none => { e with zlname := some (db_hdf5_fullname cwg zn) }
  | _, _ => e

/-- Embedding of `LookupNodelist` (silo_hdf5.c:1038-1069): scan the slots
in order; an occupied slot owned by the same file matches if the supplied
zonelist name equals its recorded zonelist name (preferred) or the
supplied mesh name equals its recorded mesh name, each resolved to
absolute form; on a match the other key is backfilled if newly supplied
and the entry's connectivity is returned.  Returns the result and the
(possibly backfilled) cache. -/
def LookupNodelist (cwg : String) (dbfile : Nat)
    (zlname meshname : Option String) :
    List (Option ZLInfo) → Option DBzonelist × List (Option ZLInfo)
  | [] => (none, [])
  | slot :: rest =>
      match slot with
      | some e =>
          if e.db5file = dbfile then
            if entryMatchZl cwg zlname e then
              (some e.zl, some (backfillMesh cwg meshname e) :: rest)
            else if entryMatchMesh cwg meshname e then
              (some e.zl, some (backfillZl cwg zlname e) :: rest)
            else
              let next := LookupNodelist cwg dbfile zlname meshname rest
              (next.1, slot :: next.2)
          else
            let next := LookupNodelist cwg dbfile zlname meshname rest
            (next.1, slot :: next.2)
      | none =>
          let next := LookupNodelist cwg dbfile zlname meshname rest
          (next.1, none :: next.2)

/-- Placement into the first free slot (silo_hdf5.c:1107-1120): when
every slot is occupied (`i == MAX_NODELIST_INFOS`) the registration is
silently dropped and the cache is unchanged. -/
def insertFirstFree (e : ZLInfo) :
    List (Option ZLInfo) → List (Option ZLInfo)
  | [] => []
  | none :: rest => some e :: rest
  | some x :: rest => some x :: insertFirstFree e rest

/-- The deep-copied zonelist built by `RegisterNodelist`
(silo_hdf5.c:1079-1105): `lnodelist = (1 << ntopodims) * nzones` ints are
copied out of the caller's array. -/
def mkRegisteredZl (ntopodims nzones : Nat) (origin : Int)
    (nodelist : List Int) : DBzonelist :=
  { ndims := ntopodims
    nzones := nzones
    nshapes := 1
    origin := origin
    shapecnt := [nzones]
    shapetype := [if ntopodims = 2 then .quad else .hex]
    shapesize := [2 ^ ntopodims]
    lnodelist := 2 ^ ntopodims * nzones
    nodelist := nodelist.take (2 ^ ntopodims * nzones) }

/-- Embedding of `RegisterNodelist` (silo_hdf5.c:1075-1121): first a
`LookupNodelist`; when it finds an entry the function returns (with
whatever backfill that lookup performed); otherwise the deep-copied
entry, its names resolved to absolute form, is placed in the first free
slot, and silently dropped when no slot is free. -/
def RegisterNodelist (cwg : String) (dbfile : Nat)
    (zlname meshname : Option String) (ntopodims nzones : Nat)
    (origin : Int) (nodelist : List Int)
    (cache : List (Option ZLInfo)) : List (Option ZLInfo) :=
  let lk := LookupNodelist cwg dbfile zlname meshname cache
  if lk.1.isSome then lk.2
  else
    insertFirstFree
      { db5file := dbfile
        zlname := zlname.map (db_hdf5_fullname cwg)
        meshname := meshname.map (db_hdf5_fullname cwg)
        zl := mkRegisteredZl ntopodims nzones origin nodelist }
      cache

/-- Number of occupied slots. -/
def occupiedCount (cache : List (Option ZLInfo)) : Nat :=
  (cache.filter Option.isSome).length

/-- A failed lookup never modifies the cache. -/
theorem LookupNodelist_fail_cache (cwg : String) (f : Nat)
    (zl mesh : Option String) (cache : List (Option ZLInfo))
    (h : (LookupNodelist cwg f zl mesh cache).1 = none) :
    (LookupNodelist cwg f zl mesh cache).2 = cache := by
  induction cache with
  | nil => rfl
  | cons slot rest ih =>
      cases slot with
      | none =>
          simp only [LookupNodelist] at h ⊢
          rw [ih h]
      | some e =>
          by_cases hf : e.db5file = f
          · by_cases hz : entryMatchZl cwg zl e
            · simp [LookupNodelist, hf, hz] at h
            · by_cases hm : entryMatchMesh cwg mesh e
              · simp [LookupNodelist, hf, hz, hm] at h
              · simp only [LookupNodelist, if_pos hf, if_neg hz,
                  if_neg hm] at h ⊢
                rw [ih h]
          · simp only [LookupNodelist, if_neg hf] at h ⊢
            rw [ih h]

/-- Lookup on an all-free cache finds nothing. -/
theorem LookupNodelist_replicate (cwg : String) (f : Nat)
    (zl mesh : Option String) (n : Nat) :
    LookupNodelist cwg f zl mesh (List.replicate n none) =
      (none, List.replicate n none) := by
  induction n with
  | zero => rfl
  | succ n ih => simp [List.replicate_succ, LookupNodelist, ih]

/-- Lookup preserves which slots are occupied (it only backfills a name
inside an existing entry). -/
theorem LookupNodelist_occupancy (cwg : String) (f : Nat)
    (zl mesh : Option String) (cache : List (Option ZLInfo)) :
    ((LookupNodelist cwg f zl mesh cache).2).map Option.isSome =
      cache.map Option.isSome := by
  induction cache with
  | nil => rfl
  | cons slot rest ih =>
      cases slot with
      | none => simp [LookupNodelist, ih]
      | some e =>
          by_cases hf : e.db5file = f
          · by_cases hz : entryMatchZl cwg zl e
            · simp [LookupNodelist, hf, hz]
            · by_cases hm : entryMatchMesh cwg mesh e
              · simp [LookupNodelist, hf, hz, hm]
              · simp [LookupNodelist, hf, hz, hm, ih]
          · simp [LookupNodelist, hf, ih]

/-- Insertion into the first free slot preserves the length. -/
theorem insertFirstFree_length (e : ZLInfo)
    (cache : List (Option ZLInfo)) :
    (insertFirstFree e cache).length = cache.length := by
  induction cache with
  | nil => rfl
  | cons slot rest ih => cases slot <;> simp [insertFirstFree, ih]

/-- Insertion into a fully occupied cache is silently dropped. -/
theorem insertFirstFree_full (e : ZLInfo)
    (cache : List (Option ZLInfo)) (h : ∀ s ∈ cache, s.isSome) :
    insertFirstFree e cache = cache := by
  induction cache with
  | nil => rfl
  | cons slot rest ih =>
      cases slot with
      | none => exact absurd (h none (by simp)) (by simp)
      | some x =>
          simp only [insertFirstFree]
          rw [ih fun s hs => h s (by simp [hs])]

/-- The zonelist-key test succeeds exactly for a supplied name whose
absolute form is the entry's recorded zonelist name. -/
theorem entryMatchZl_eq_true (cwg : String) (zl : Option String)
    (e : ZLInfo) :
    entryMatchZl cwg zl e = true ↔
      ∃ z, zl = some z ∧ e.zlname = some (db_hdf5_fullname cwg z) := by
  cases zl with
  | none => simp [entryMatchZl]
  | some zn =>
      cases hez : e.zlname with
      | none => simp [entryMatchZl, hez]
      | some ezn =>
          simp only [entryMatchZl, hez, beq_iff_eq, Option.some.injEq]
          constructor
          · intro h
            exact ⟨zn, rfl, h.symm⟩
          · rintro ⟨z, hz, hfull⟩
            cases hz
            exact hfull.symm

/-- The mesh-key test succeeds exactly for a supplied name whose absolute
form is the entry's recorded mesh name. -/
theorem entryMatchMesh_eq_true (cwg : String) (mesh : Option String)
    (e : ZLInfo) :
    entryMatchMesh cwg mesh e = true ↔
      ∃ m, mesh = some m ∧ e.meshname = some (db_hdf5_fullname cwg m) := by
  cases mesh with
  | none => simp [entryMatchMesh]
  | some mn =>
      cases hem : e.meshname with
      | none => simp [entryMatchMesh, hem]
      | some emn =>
          simp only [entryMatchMesh, hem, beq_iff_eq, Option.some.injEq]
          constructor
          · intro h
            exact ⟨mn, rfl, h.symm⟩
          · rintro ⟨m, hm, hfull⟩
            cases hm
            exact hfull.symm

/-- A successful lookup is always justified by an entry of the same file
whose recorded name for one of the supplied keys equals that key's
absolute form. -/
theorem LookupNodelist_found_keys (cwg : String) (f : Nat)
    (zl mesh : Option String) (cache cache' : List (Option ZLInfo))
    (r : DBzonelist)
    (h : LookupNodelist cwg f zl mesh cache = (some r, cache')) :
    ∃ e, some e ∈ cache ∧ e.db5file = f ∧ e.zl = r ∧
      ((∃ z, zl = some z ∧ e.zlname = some (db_hdf5_fullname cwg z)) ∨
        (∃ m, mesh = some m ∧
          e.meshname = some (db_hdf5_fullname cwg m))) := by
  induction cache generalizing cache' with
  | nil => simp [LookupNodelist] at h
  | cons slot rest ih =>
      cases slot with
      | none =>
          simp only [LookupNodelist, Prod.mk.injEq] at h
          obtain ⟨e, he, hrest⟩ := ih _ (Prod.ext h.1 rfl)
          exact ⟨e, by simp [he], hrest⟩
      | some e =>
          by_cases hf : e.db5file = f
          · by_cases hz : entryMatchZl cwg zl e
            · simp only [LookupNodelist, if_pos hf, if_pos hz,
                Prod.mk.injEq, Option.some.injEq] at h
              exact ⟨e, by simp, hf, h.1,
                .inl ((entryMatchZl_eq_true _ _ _).mp hz)⟩
            · by_cases hm : entryMatchMesh cwg mesh e
              · simp only [LookupNodelist, if_pos hf, if_neg hz, if_pos hm,
                  Prod.mk.injEq, Option.some.injEq] at h
                exact ⟨e, by simp, hf, h.1,
                  .inr ((entryMatchMesh_eq_true _ _ _).mp hm)⟩
              · simp only [LookupNodelist, if_pos hf, if_neg hz, if_neg hm,
                  Prod.mk.injEq] at h
                obtain ⟨e', he', hrest⟩ := ih _ (Prod.ext h.1 rfl)
                exact ⟨e', by simp [he'], hrest⟩
          · simp only [LookupNodelist, if_neg hf, Prod.mk.injEq] at h
            obtain ⟨e', he', hrest⟩ := ih _ (Prod.ext h.1 rfl)
            exact ⟨e', by simp [he'], hrest⟩

/-- The cache state after `Register(f, zl, none)` on an all-free cache:
one entry holding the absolute zonelist name, no mesh name. -/
theorem register_zl_only_eq (cwg : String) (f : Nat) (zn : String)
    (ntopo nz : Nat) (org : Int) (nl : List Int) :
    RegisterNodelist cwg f (some zn) none ntopo nz org nl
        (List.replicate MAX_NODELIST_INFOS none) =
      some ⟨f, some (db_hdf5_fullname cwg zn), none,
          mkRegisteredZl ntopo nz org nl⟩ ::
        List.replicate 31 none := by
  unfold RegisterNodelist
  rw [LookupNodelist_replicate]
  simp only [Option.isSome_none, Bool.false_eq_true, if_false]
  rw [show MAX_NODELIST_INFOS = 31 + 1 from rfl, List.replicate_succ]
  simp [insertFirstFree]

/-- The cache state after `Register(f, none, mesh)` on an all-free
cache: one entry holding the absolute mesh name, no zonelist name. -/
theorem register_mesh_only_eq (cwg : String) (f : Nat) (mn : String)
    (ntopo nz : Nat) (org : Int) (nl : List Int) :
    RegisterNodelist cwg f none (some mn) ntopo nz org nl
        (List.replicate MAX_NODELIST_INFOS none) =
      some ⟨f, none, some (db_hdf5_fullname cwg mn),
          mkRegisteredZl ntopo nz org nl⟩ ::
        List.replicate 31 none := by
  unfold RegisterNodelist
  rw [LookupNodelist_replicate]
  simp only [Option.isSome_none, Bool.false_eq_true, if_false]
  rw [show MAX_NODELIST_INFOS = 31 + 1 from rfl, List.replicate_succ]
  simp [insertFirstFree]

/-- C4.  A lookup matches only entries of the same file whose recorded
name for a supplied key equals that key resolved to absolute form.  After
a registration that supplied only a zonelist name, lookup by mesh name
alone finds nothing; a successful lookup supplying both keys backfills
the absolute mesh name into the entry (silo_hdf5.c:1055-1056), after
which lookup by either key alone succeeds.  Symmetrically, after a
registration that supplied only a mesh name, lookup by zonelist name
alone finds nothing; a successful both-key lookup backfills the absolute
zonelist name (silo_hdf5.c:1062-1063), after which lookup by either key
alone succeeds.  Both backfilled caches are pinned exactly: the entry
carries the absolute forms of both names. -/
theorem LookupNodelist_keys_and_backfill (cwg : String) (f : Nat)
    (zn mn : String) (ntopo nz : Nat) (org : Int) (nl : List Int) :
    (∀ (zl mesh : Option String) (cache cache' : List (Option ZLInfo))
        (r : DBzonelist),
      LookupNodelist cwg f zl mesh cache = (some r, cache') →
      ∃ e, some e ∈ cache ∧ e.db5file = f ∧ e.zl = r ∧
        ((∃ z, zl = some z ∧ e.zlname = some (db_hdf5_fullname cwg z)) ∨
          (∃ m, mesh = some m ∧
            e.meshname = some (db_hdf5_fullname cwg m)))) ∧
    (LookupNodelist cwg f none (some mn)
        (RegisterNodelist cwg f (some zn) none ntopo nz org nl
          (List.replicate MAX_NODELIST_INFOS none))).1 = none ∧
    ((LookupNodelist cwg f (some zn) (some mn)
        (RegisterNodelist cwg f (some zn) none ntopo nz org nl
          (List.replicate MAX_NODELIST_INFOS none))).1).isSome = true ∧
    ((LookupNodelist cwg f none (some mn)
        ((LookupNodelist cwg f (some zn) (some mn)
          (RegisterNodelist cwg f (some zn) none ntopo nz org nl
            (List.replicate MAX_NODELIST_INFOS none))).2)).1).isSome
      = true ∧
    ((LookupNodelist cwg f (some zn) none
        ((LookupNodelist cwg f (some zn) (some mn)
          (RegisterNodelist cwg f (some zn) none ntopo nz org nl
            (List.replicate MAX_NODELIST_INFOS none))).2)).1).isSome
      = true ∧
    (LookupNodelist cwg f (some zn) (some mn)
        (RegisterNodelist cwg f (some zn) none ntopo nz org nl
          (List.replicate MAX_NODELIST_INFOS none))).2 =
      some ⟨f, some (db_hdf5_fullname cwg zn),
          some (db_hdf5_fullname cwg mn), mkRegisteredZl ntopo nz org nl⟩ ::
        List.replicate 31 none ∧
    (LookupNodelist cwg f (some zn) none
        (RegisterNodelist cwg f none (some mn) ntopo nz org nl
          (List.replicate MAX_NODELIST_INFOS none))).1 = none ∧
    ((LookupNodelist cwg f (some zn) (some mn)
        (RegisterNodelist cwg f none (some mn) ntopo nz org nl
          (List.replicate MAX_NODELIST_INFOS none))).1).isSome = true ∧
    (LookupNodelist cwg f (some zn) (some mn)
        (RegisterNodelist cwg f none (some mn) ntopo nz org nl
          (List.replicate MAX_NODELIST_INFOS none))).2 =
      some ⟨f, some (db_hdf5_fullname cwg zn),
          some (db_hdf5_fullname cwg mn), mkRegisteredZl ntopo nz org nl⟩ ::
        List.replicate 31 none ∧
    ((LookupNodelist cwg f (some zn) none
        ((LookupNodelist cwg f (some zn) (some mn)
          (RegisterNodelist cwg f none (some mn) ntopo nz org nl
            (List.replicate MAX_NODELIST_INFOS none))).2)).1).isSome
      = true ∧
    ((LookupNodelist cwg f none (some mn)
        ((LookupNodelist cwg f (some zn) (some mn)
          (RegisterNodelist cwg f none (some mn) ntopo nz org nl
            (List.replicate MAX_NODELIST_INFOS none))).2)).1).isSome
      = true := by
  refine ⟨fun zl mesh cache cache' r h =>
    LookupNodelist_found_keys cwg f zl mesh cache cache' r h,
    ?_, ?_, ?_, ?_, ?_, ?_, ?_, ?_, ?_, ?_⟩
  · rw [register_zl_only_eq]
    simp [LookupNodelist, entryMatchZl, entryMatchMesh,
      LookupNodelist_replicate]
  · rw [register_zl_only_eq]
    simp [LookupNodelist, entryMatchZl]
  · rw [register_zl_only_eq]
    simp [LookupNodelist, entryMatchZl, entryMatchMesh, backfillMesh,
      LookupNodelist_replicate]
  · rw [register_zl_only_eq]
    simp [LookupNodelist, entryMatchZl, entryMatchMesh, backfillMesh,
      LookupNodelist_replicate]
  · rw [register_zl_only_eq]
    simp [LookupNodelist, entryMatchZl, backfillMesh]
  · rw [register_mesh_only_eq]
    simp [LookupNodelist, entryMatchZl, entryMatchMesh,
      LookupNodelist_replicate]
  · rw [register_mesh_only_eq]
    simp [LookupNodelist, entryMatchZl, entryMatchMesh]
  · rw [register_mesh_only_eq]
    simp [LookupNodelist, entryMatchZl, entryMatchMesh, backfillZl]
  · rw [register_mesh_only_eq]
    simp [LookupNodelist, entryMatchZl, entryMatchMesh, backfillZl,
      LookupNodelist_replicate]
  · rw [register_mesh_only_eq]
    simp [LookupNodelist, entryMatchZl, entryMatchMesh, backfillZl,
      LookupNodelist_replicate]

/-- Witness for `LookupNodelist_keys_and_backfill`: a one-entry cache
looked up by its zonelist key, the mesh-only lookup after a zonelist-only
registration, and the symmetric zonelist-only lookup after a mesh-only
registration. -/
theorem LookupNodelist_keys_and_backfill_witness :
    (∃ e, some e ∈
        [some (ZLInfo.mk 1 (some "/zl") none
          (mkRegisteredZl 2 1 0 [0, 1, 2, 3]))] ∧
      e.db5file = 1 ∧ e.zl = mkRegisteredZl 2 1 0 [0, 1, 2, 3] ∧
      ((∃ z, (some "/zl" : Option String) = some z ∧
          e.zlname = some (db_hdf5_fullname "/" z)) ∨
        (∃ m, (none : Option String) = some m ∧
          e.meshname = some (db_hdf5_fullname "/" m)))) ∧
    (LookupNodelist "/" 1 none (some "m")
        (RegisterNodelist "/" 1 (some "zl") none 2 1 0 [0, 1, 2, 3]
          (List.replicate MAX_NODELIST_INFOS none))).1 = none ∧
    (LookupNodelist "/" 1 (some "zl") none
        (RegisterNodelist "/" 1 none (some "m") 2 1 0 [0, 1, 2, 3]
          (List.replicate MAX_NODELIST_INFOS none))).1 = none :=
  ⟨(LookupNodelist_keys_and_backfill "/" 1 "zl" "m" 2 1 0 [0, 1, 2, 3]).1
      (some "/zl") none
      [some (ZLInfo.mk 1 (some "/zl") none
        (mkRegisteredZl 2 1 0 [0, 1, 2, 3]))]
      [some (ZLInfo.mk 1 (some "/zl") none
        (mkRegisteredZl 2 1 0 [0, 1, 2, 3]))]
      (mkRegisteredZl 2 1 0 [0, 1, 2, 3]) (by decide),
    (LookupNodelist_keys_and_backfill "/" 1 "zl" "m" 2 1 0 [0, 1, 2, 3]).2.1,
    (LookupNodelist_keys_and_backfill "/" 1 "zl" "m" 2 1 0
      [0, 1, 2, 3]).2.2.2.2.2.2.1⟩

/-- Lookup preserves the number of occupied slots. -/
theorem LookupNodelist_occupied (cwg : String) (f : Nat)
    (zl mesh : Option String) (cache : List (Option ZLInfo)) :
    occupiedCount (LookupNodelist cwg f zl mesh cache).2 =
      occupiedCount cache := by
  induction cache with
  | nil => rfl
  | cons slot rest ih =>
      cases slot with
      | none =>
          simp only [LookupNodelist]
          simp [occupiedCount, List.filter] at ih ⊢
          exact ih
      | some e =>
          by_cases hf : e.db5file = f
          · by_cases hz : entryMatchZl cwg zl e
            · simp [LookupNodelist, hf, hz, occupiedCount, List.filter]
            · by_cases hm : entryMatchMesh cwg mesh e
              · simp [LookupNodelist, hf, hz, hm, occupiedCount,
                  List.filter]
              · simp only [LookupNodelist, if_pos hf, if_neg hz, if_neg hm]
                simp [occupiedCount, List.filter] at ih ⊢
                exact ih
          · simp only [LookupNodelist, if_neg hf]
            simp [occupiedCount, List.filter] at ih ⊢
            exact ih

/-- C5 counterexample.  The claim "Register is a no-op when Lookup
already finds an equivalent entry" fails: registering (zl, mesh) against
a cache whose matching entry recorded only the zonelist name changes the
cache, because the Lookup performed as Register's first step
(silo_hdf5.c:1085) backfills the entry's missing mesh name. -/
theorem RegisterNodelist_noop_ctex :
    RegisterNodelist "/" 1 (some "/zl") (some "/m") 2 1 0 [0, 1, 2, 3]
        (some (ZLInfo.mk 1 (some "/zl") none
            (mkRegisteredZl 2 1 0 [0, 1, 2, 3])) ::
          List.replicate 31 none) =
      (some (ZLInfo.mk 1 (some "/zl") (some "/m")
          (mkRegisteredZl 2 1 0 [0, 1, 2, 3])) ::
        List.replicate 31 none) ∧
    (some (ZLInfo.mk 1 (some "/zl") (some "/m")
        (mkRegisteredZl 2 1 0 [0, 1, 2, 3])) ::
      List.replicate 31 none : List (Option ZLInfo)) ≠
      (some (ZLInfo.mk 1 (some "/zl") none
          (mkRegisteredZl 2 1 0 [0, 1, 2, 3])) ::
        List.replicate 31 none) := by
  exact ⟨by decide, by decide⟩

/-- C5 (amended).  The cache never grows beyond its fixed capacity:
registration preserves the slot count, and with a 32-slot cache at most
32 entries are ever held.  When the initial Lookup finds an equivalent
entry, Register adds no entry — the cache is exactly the Lookup's output,
whose occupancy equals the original (only a missing name may have been
backfilled).  When nothing is found, the deep-copied entry (names
resolved absolute, `(1 << ndims) * nzones` ints copied) goes into the
first free slot; with every slot occupied the registration is silently
dropped, leaving the cache unchanged and raising no error. -/
theorem RegisterNodelist_amended (cwg : String) (f : Nat)
    (zl mesh : Option String) (ntopo nz : Nat) (org : Int)
    (nl : List Int) (cache : List (Option ZLInfo)) :
    (RegisterNodelist cwg f zl mesh ntopo nz org nl cache).length =
      cache.length ∧
    (cache.length = MAX_NODELIST_INFOS →
      occupiedCount (RegisterNodelist cwg f zl mesh ntopo nz org nl cache)
        ≤ MAX_NODELIST_INFOS) ∧
    ((LookupNodelist cwg f zl mesh cache).1.isSome = true →
      RegisterNodelist cwg f zl mesh ntopo nz org nl cache =
        (LookupNodelist cwg f zl mesh cache).2 ∧
      occupiedCount (LookupNodelist cwg f zl mesh cache).2 =
        occupiedCount cache) ∧
    ((LookupNodelist cwg f zl mesh cache).1 = none →
      RegisterNodelist cwg f zl mesh ntopo nz org nl cache =
        insertFirstFree
          ⟨f, zl.map (db_hdf5_fullname cwg),
            mesh.map (db_hdf5_fullname cwg),
            mkRegisteredZl ntopo nz org nl⟩ cache) ∧
    ((LookupNodelist cwg f zl mesh cache).1 = none →
      (∀ s ∈ cache, s.isSome = true) →
      RegisterNodelist cwg f zl mesh ntopo nz org nl cache = cache) := by
  have hlen : (RegisterNodelist cwg f zl mesh ntopo nz org nl cache).length
      = cache.length := by
    by_cases hfound : (LookupNodelist cwg f zl mesh cache).1.isSome = true
    · simp only [RegisterNodelist]
      rw [if_pos hfound]
      have h2 :=
        congrArg List.length (LookupNodelist_occupancy cwg f zl mesh cache)
      simpa using h2
    · simp only [RegisterNodelist]
      rw [if_neg hfound]
      exact insertFirstFree_length _ _
  refine ⟨hlen, ?_, ?_, ?_, ?_⟩
  · intro h32
    calc occupiedCount (RegisterNodelist cwg f zl mesh ntopo nz org nl
          cache)
        ≤ (RegisterNodelist cwg f zl mesh ntopo nz org nl cache).length :=
          List.length_filter_le _ _
      _ = MAX_NODELIST_INFOS := by rw [hlen, h32]
  · intro hfound
    constructor
    · simp only [RegisterNodelist]
      rw [if_pos hfound]
    · exact LookupNodelist_occupied cwg f zl mesh cache
  · intro hnone
    simp only [RegisterNodelist]
    rw [if_neg (by simp [hnone])]
  · intro hnone hfull
    simp only [RegisterNodelist]
    rw [if_neg (by simp [hnone])]
    exact insertFirstFree_full _ _ hfull

/-- Witness for `RegisterNodelist_amended`: a fully occupied cache owned
by another file; the registration is silently dropped. -/
theorem RegisterNodelist_amended_witness :
    (LookupNodelist "/" 1 (some "zl") none
        (List.replicate MAX_NODELIST_INFOS
          (some (ZLInfo.mk 2 (some "/other") none
            (mkRegisteredZl 2 1 0 []))))).1 = none ∧
    (∀ s ∈ List.replicate MAX_NODELIST_INFOS
        (some (ZLInfo.mk 2 (some "/other") none
          (mkRegisteredZl 2 1 0 []))), s.isSome = true) ∧
    RegisterNodelist "/" 1 (some "zl") none 2 1 0 [0, 1, 2, 3]
        (List.replicate MAX_NODELIST_INFOS
          (some (ZLInfo.mk 2 (some "/other") none
            (mkRegisteredZl 2 1 0 [])))) =
      List.replicate MAX_NODELIST_INFOS
        (some (ZLInfo.mk 2 (some "/other") none
          (mkRegisteredZl 2 1 0 []))) :=
  ⟨by decide, by decide,
    (RegisterNodelist_amended "/" 1 (some "zl") none 2 1 0 [0, 1, 2, 3]
        (List.replicate MAX_NODELIST_INFOS
          (some (ZLInfo.mk 2 (some "/other") none
            (mkRegisteredZl 2 1 0 []))))).2.2.2.2
      (by decide) (by decide)⟩

/-! ## UCD-variable decompression preparation (silo_hdf5.c:9143-9185
    `PrepareForUcdvarDecompression`, invoked by `db_hdf5_GetUcdvar` at
    line 9273) -/

/-- The library globals the preparation step touches: the data-read mask
(accessed through `DBGetDataReadMask`/`DBSetDataReadMask`) and the
nodelist cache.  The mask type `M` is kept abstract because the mask bit
constants live in silo.h, outside this repository's `src/`. -/
structure ReadGlobals (M : Type) where
  dataReadMask : M
  cache : List (Option ZLInfo)
deriving DecidableEq, Repr

/-- Observable behavior of one `PrepareForUcdvarDecompression` call: the
mask in force during the bootstrap mesh read (`none` when no such read
happens) and the globals afterwards. -/
structure PrepTrace (M : Type) where
  maskDuringRead : Option M
  stateAfter : ReadGlobals M
deriving DecidableEq, Repr

/-- Embedding of `PrepareForUcdvarDecompression` (silo_hdf5.c:9143-9185).
`anyCompressed` abstracts the `db_hdf5_compckz` loop over the variable's
value datasets (lines 9155-9157); `zlMask` is the restricted mask value
`DBUMZonelist|DBZonelistInfo` set at line 9163 (`DBGetDataReadMask` /
`DBSetDataReadMask` are plain accessors of the global mask, modelled from
the spec since silo.c is outside `src/`); `getUcdmesh` abstracts
`db_hdf5_GetUcdmesh` — its effect on the nodelist cache (e.g.
registrations made by the HZIP decompression filter) and the returned
`um->zones` — which never writes the global mask (the only writes in
silo_hdf5.c are lines 9163 and 9175).  The hzip parameter-slot reset at
lines 9180-9182 touches state outside this record. -/
def PrepareForUcdvarDecompression {M : Type} (cwg : String) (dbfile : Nat)
    (meshname : String) (anyCompressed : Bool) (zlMask : M)
    (getUcdmesh : List (Option ZLInfo) → List (Option ZLInfo) × DBzonelist)
    (st : ReadGlobals M) : PrepTrace M :=
  let lk := LookupNodelist cwg dbfile none (some meshname) st.cache
  if lk.1 = none then
    if anyCompressed then
      let currentMask := st.dataReadMask
      let res := getUcdmesh lk.2
      let cache2 := RegisterNodelist cwg dbfile none (some meshname)
        res.2.ndims res.2.nzones res.2.origin res.2.nodelist res.1
      { maskDuringRead := some zlMask,
        stateAfter := { dataReadMask := currentMask, cache := cache2 } }
    else
      { maskDuringRead := none, stateAfter := { st with cache := lk.2 } }
  else
    { maskDuringRead := none, stateAfter := { st with cache := lk.2 } }

/-- A lookup that supplies no zonelist name never modifies the cache:
neither backfill direction can fire. -/
theorem LookupNodelist_no_zl_cache (cwg : String) (f : Nat)
    (mesh : Option String) (cache : List (Option ZLInfo)) :
    (LookupNodelist cwg f none mesh cache).2 = cache := by
  induction cache with
  | nil => rfl
  | cons slot rest ih =>
      cases slot with
      | none =>
          simp only [LookupNodelist]
          rw [ih]
      | some e =>
          by_cases hf : e.db5file = f
          · have hz : entryMatchZl cwg none e = false := rfl
            by_cases hm : entryMatchMesh cwg mesh e
            · simp [LookupNodelist, hf, hz, hm, backfillZl]
            · simp only [LookupNodelist, if_pos hf, hz,
                Bool.false_eq_true, if_false, if_neg hm]
              rw [ih]
          · simp only [LookupNodelist, if_neg hf]
            rw [ih]

/-- After inserting an entry that carries the sought mesh key into a
cache with a free slot, on which the same lookup previously failed, the
mesh-only lookup succeeds. -/
theorem LookupNodelist_after_insert (cwg : String) (f : Nat) (mn : String)
    (e : ZLInfo) (cache : List (Option ZLInfo))
    (hef : e.db5file = f)
    (hem : e.meshname = some (db_hdf5_fullname cwg mn))
    (hfail : (LookupNodelist cwg f none (some mn) cache).1 = none)
    (hfree : ∃ s ∈ cache, s = none) :
    (LookupNodelist cwg f none (some mn)
      (insertFirstFree e cache)).1 = some e.zl := by
  induction cache with
  | nil => simp at hfree
  | cons slot rest ih =>
      cases slot with
      | none =>
          simp only [insertFirstFree, LookupNodelist, if_pos hef]
          have hz : entryMatchZl cwg none e = false := rfl
          have hm : entryMatchMesh cwg (some mn) e = true := by
            rw [entryMatchMesh_eq_true]
            exact ⟨mn, rfl, hem⟩
          simp [hz, hm]
      | some x =>
          simp only [insertFirstFree]
          have hz : entryMatchZl cwg none x = false := rfl
          by_cases hf : x.db5file = f
          · by_cases hm : entryMatchMesh cwg (some mn) x
            · simp [LookupNodelist, hf, hz, hm] at hfail
            · simp only [LookupNodelist, if_pos hf, hz,
                Bool.false_eq_true, if_false, if_neg hm] at hfail ⊢
              refine ih hfail ?_
              rcases hfree with ⟨s, hs, hs0⟩
              rcases List.mem_cons.mp hs with hs1 | hs1
              · exact absurd hs0 (by simp [hs1])
              · exact ⟨s, hs1, hs0⟩
          · simp only [LookupNodelist, if_neg hf] at hfail ⊢
            refine ih hfail ?_
            rcases hfree with ⟨s, hs, hs0⟩
            rcases List.mem_cons.mp hs with hs1 | hs1
            · exact absurd hs0 (by simp [hs1])
            · exact ⟨s, hs1, hs0⟩

/-- C6.  The preparation step restores the global data-read mask exactly
(it is saved at silo_hdf5.c:9161 and restored at 9175).  When the owning
mesh's connectivity is absent from the cache and the value datasets are
compressed, the zonelist-only read of the owning mesh runs under the
restricted mask `DBUMZonelist|DBZonelistInfo` and its resulting nodelist
is registered; afterwards a mesh-name lookup succeeds provided the
registration could land (an equivalent entry already present, or a free
slot).  When the connectivity is already cached or nothing is compressed,
no mesh read happens and the cache is untouched. -/
theorem PrepareForUcdvarDecompression_frame {M : Type} (cwg : String)
    (dbfile : Nat) (meshname : String) (anyCompressed : Bool) (zlMask : M)
    (getUcdmesh : List (Option ZLInfo) → List (Option ZLInfo) × DBzonelist)
    (st : ReadGlobals M) :
    (PrepareForUcdvarDecompression cwg dbfile meshname anyCompressed
        zlMask getUcdmesh st).stateAfter.dataReadMask = st.dataReadMask ∧
    ((LookupNodelist cwg dbfile none (some meshname) st.cache).1 = none →
      anyCompressed = true →
      (PrepareForUcdvarDecompression cwg dbfile meshname anyCompressed
          zlMask getUcdmesh st).maskDuringRead = some zlMask ∧
      (PrepareForUcdvarDecompression cwg dbfile meshname anyCompressed
          zlMask getUcdmesh st).stateAfter.cache =
        RegisterNodelist cwg dbfile none (some meshname)
          (getUcdmesh st.cache).2.ndims (getUcdmesh st.cache).2.nzones
          (getUcdmesh st.cache).2.origin (getUcdmesh st.cache).2.nodelist
          (getUcdmesh st.cache).1 ∧
      (((LookupNodelist cwg dbfile none (some meshname)
            (getUcdmesh st.cache).1).1.isSome = true ∨
          ∃ s ∈ (getUcdmesh st.cache).1, s = none) →
        (LookupNodelist cwg dbfile none (some meshname)
          (PrepareForUcdvarDecompression cwg dbfile meshname anyCompressed
            zlMask getUcdmesh st).stateAfter.cache).1.isSome = true)) ∧
    (¬((LookupNodelist cwg dbfile none (some meshname) st.cache).1 = none ∧
        anyCompressed = true) →
      (PrepareForUcdvarDecompression cwg dbfile meshname anyCompressed
          zlMask getUcdmesh st).maskDuringRead = none ∧
      (PrepareForUcdvarDecompression cwg dbfile meshname anyCompressed
          zlMask getUcdmesh st).stateAfter.cache = st.cache) := by
  have hnc := LookupNodelist_no_zl_cache cwg dbfile (some meshname) st.cache
  by_cases hl : (LookupNodelist cwg dbfile none (some meshname)
      st.cache).1 = none
  · by_cases hc : anyCompressed = true
    · have hres : PrepareForUcdvarDecompression cwg dbfile meshname
          anyCompressed zlMask getUcdmesh st =
          ⟨some zlMask,
            ⟨st.dataReadMask,
              RegisterNodelist cwg dbfile none (some meshname)
                (getUcdmesh st.cache).2.ndims (getUcdmesh st.cache).2.nzones
                (getUcdmesh st.cache).2.origin
                (getUcdmesh st.cache).2.nodelist
                (getUcdmesh st.cache).1⟩⟩ := by
        simp only [PrepareForUcdvarDecompression, if_pos hl, hc, if_true,
          hnc]
      rw [hres]
      refine ⟨rfl, fun _ _ => ⟨rfl, rfl, ?_⟩,
        fun habs => absurd ⟨hl, hc⟩ habs⟩
      intro hland
      rcases hland with hfound | hfree
      · simp only [RegisterNodelist]
        rw [if_pos hfound,
          LookupNodelist_no_zl_cache cwg dbfile (some meshname)
            (getUcdmesh st.cache).1]
        exact hfound
      · by_cases hli : (LookupNodelist cwg dbfile none (some meshname)
            (getUcdmesh st.cache).1).1.isSome = true
        · simp only [RegisterNodelist]
          rw [if_pos hli,
            LookupNodelist_no_zl_cache cwg dbfile (some meshname)
              (getUcdmesh st.cache).1]
          exact hli
        · have hln : (LookupNodelist cwg dbfile none (some meshname)
              (getUcdmesh st.cache).1).1 = none :=
            Option.not_isSome_iff_eq_none.mp (by simpa using hli)
          simp only [RegisterNodelist]
          rw [if_neg hli]
          rw [LookupNodelist_after_insert cwg dbfile meshname _ _ rfl rfl
            hln hfree]
          rfl
    · have hcf : anyCompressed = false := by
        cases anyCompressed
        · rfl
        · exact absurd rfl hc
      have hres : PrepareForUcdvarDecompression cwg dbfile meshname
          anyCompressed zlMask getUcdmesh st = ⟨none, st⟩ := by
        simp only [PrepareForUcdvarDecompression, if_pos hl, hcf,
          Bool.false_eq_true, if_false, hnc]
      rw [hres]
      exact ⟨rfl, fun _ hco => absurd hco hc, fun _ => ⟨rfl, rfl⟩⟩
  · have hres : PrepareForUcdvarDecompression cwg dbfile meshname
        anyCompressed zlMask getUcdmesh st = ⟨none, st⟩ := by
      simp only [PrepareForUcdvarDecompression, if_neg hl, hnc]
    rw [hres]
    exact ⟨rfl, fun hno => absurd hno hl, fun _ => ⟨rfl, rfl⟩⟩

/-- Witness for `PrepareForUcdvarDecompression_frame`: an empty 32-slot
cache, compressed values, and a mesh read returning a quad zonelist; the
mask (7) is restored, the read ran under the restricted mask (3), and the
mesh-name lookup succeeds afterwards. -/
theorem PrepareForUcdvarDecompression_frame_witness :
    (PrepareForUcdvarDecompression "/" 1 "m" true (3 : Nat)
        (fun c => (c, mkRegisteredZl 2 1 0 [0, 1, 2, 3]))
        ⟨7, List.replicate MAX_NODELIST_INFOS none⟩).stateAfter.dataReadMask
      = 7 ∧
    (PrepareForUcdvarDecompression "/" 1 "m" true (3 : Nat)
        (fun c => (c, mkRegisteredZl 2 1 0 [0, 1, 2, 3]))
        ⟨7, List.replicate MAX_NODELIST_INFOS none⟩).maskDuringRead
      = some 3 ∧
    (LookupNodelist "/" 1 none (some "m")
        (PrepareForUcdvarDecompression "/" 1 "m" true (3 : Nat)
          (fun c => (c, mkRegisteredZl 2 1 0 [0, 1, 2, 3]))
          ⟨7, List.replicate MAX_NODELIST_INFOS
            none⟩).stateAfter.cache).1.isSome = true :=
  ⟨(PrepareForUcdvarDecompression_frame "/" 1 "m" true 3
      (fun c => (c, mkRegisteredZl 2 1 0 [0, 1, 2, 3]))
      ⟨7, List.replicate MAX_NODELIST_INFOS none⟩).1,
    ((PrepareForUcdvarDecompression_frame "/" 1 "m" true 3
      (fun c => (c, mkRegisteredZl 2 1 0 [0, 1, 2, 3]))
      ⟨7, List.replicate MAX_NODELIST_INFOS none⟩).2.1
        (by decide) rfl).1,
    ((PrepareForUcdvarDecompression_frame "/" 1 "m" true 3
      (fun c => (c, mkRegisteredZl 2 1 0 [0, 1, 2, 3]))
      ⟨7, List.replicate MAX_NODELIST_INFOS none⟩).2.1
        (by decide) rfl).2.2 (Or.inr ⟨none, by decide, rfl⟩)⟩

/-! ## Hyperslab selection (silo_hdf5.c:2615-2644 `build_fspace`;
    6192-6257 `db_hdf5_ReadVarSlice`) -/

/-- The container format's maximum dataspace rank (`H5S_MAX_RANK`). -/
def H5S_MAX_RANK : Nat := 32

/-- The per-dimension element count of `build_fspace`
(silo_hdf5.c:2629-2633): `(length + stride - 1) / stride` when the stride
is non-zero, and 1 when it is zero, so the division is never executed
with a zero divisor.  Offsets, lengths and strides are the caller's C
ints converted to the unsigned `hsize_t`, modelled as `Nat`. -/
def hs_count (length stride : Nat) : Nat :=
  if stride ≠ 0 then (length + stride - 1) / stride else 1

/-- The per-dimension counts array (`hs_count[]`, also the `size` out
parameter) of `build_fspace`. -/
def hs_counts (ndims : Nat) (length stride : List Nat) : List Nat :=
  (List.range ndims).map fun i => hs_count (length.getD i 0) (stride.getD i 0)

/-- Embedding of `build_fspace` (silo_hdf5.c:2615-2644): fails when
`ndims > H5S_MAX_RANK`; otherwise yields the hyperslab offsets, strides
and per-dimension counts handed to `H5Sselect_hyperslab`. -/
def build_fspace (ndims : Nat) (offset length stride : List Nat) :
    Option (List Nat × List Nat × List Nat) :=
  if ndims > H5S_MAX_RANK then none
  else some (offset.take ndims, stride.take ndims,
    hs_counts ndims length stride)

/-- The memory-space extents of `db_hdf5_ReadVarSlice`
(silo_hdf5.c:6218-6229): exactly the `mem_size` counts computed by
`build_fspace`, used for `H5Screate_simple(ndims, mem_size, NULL)`. -/
def db_hdf5_ReadVarSlice_counts (ndims : Nat)
    (offset length stride : List Nat) : Option (List Nat) :=
  (build_fspace ndims offset length stride).map fun t => t.2.2

/-- C8.  For every dimension with non-zero stride, the selected element
count is `(length + stride - 1) / stride` in integer arithmetic, and this
is `ceil(length/stride)`: it is the least `n` with `length ≤ n * stride`,
and equals the rational ceiling.  `db_hdf5_ReadVarSlice` sizes its memory
space with exactly these counts. -/
theorem build_fspace_ceil_div (ndims : Nat)
    (offset length stride : List Nat) (hnd : ndims ≤ H5S_MAX_RANK)
    (i : Nat) (hi : i < ndims) (hs : stride.getD i 0 ≠ 0) :
    build_fspace ndims offset length stride =
      some (offset.take ndims, stride.take ndims,
        hs_counts ndims length stride) ∧
    db_hdf5_ReadVarSlice_counts ndims offset length stride =
      some (hs_counts ndims length stride) ∧
    (hs_counts ndims length stride).getD i 0 =
      (length.getD i 0 + stride.getD i 0 - 1) / stride.getD i 0 ∧
    length.getD i 0 ≤
      (hs_counts ndims length stride).getD i 0 * stride.getD i 0 ∧
    (∀ m, length.getD i 0 ≤ m * stride.getD i 0 →
      (hs_counts ndims length stride).getD i 0 ≤ m) ∧
    ((hs_counts ndims length stride).getD i 0 : Int) =
      ⌈(length.getD i 0 : ℚ) / (stride.getD i 0 : ℚ)⌉ := by
  have hno : ¬ ndims > H5S_MAX_RANK := not_lt.mpr hnd
  have hbf : build_fspace ndims offset length stride =
      some (offset.take ndims, stride.take ndims,
        hs_counts ndims length stride) := by
    unfold build_fspace
    rw [if_neg hno]
  have hspos : 0 < stride.getD i 0 := Nat.pos_of_ne_zero hs
  have hget : (hs_counts ndims length stride).getD i 0 =
      (length.getD i 0 + stride.getD i 0 - 1) / stride.getD i 0 := by
    simp only [hs_counts, List.getD_eq_getElem?_getD, List.getElem?_map,
      List.getElem?_range hi, Option.map_some', Option.getD_some, hs_count]
    rw [if_pos (by rwa [List.getD_eq_getElem?_getD] at hs)]
  generalize hl : length.getD i 0 = l at *
  generalize hsg : stride.getD i 0 = s at *
  have hdm := Nat.div_add_mod (l + s - 1) s
  have hmod := Nat.mod_lt (l + s - 1) hspos
  have hle : l ≤ (l + s - 1) / s * s := by
    have hc : (l + s - 1) / s * s = s * ((l + s - 1) / s) :=
      Nat.mul_comm _ _
    omega
  have hmin : ∀ m, l ≤ m * s → (l + s - 1) / s ≤ m := by
    intro m hm
    rw [Nat.div_le_iff_le_mul_add_pred hspos]
    have hc : m * s = s * m := Nat.mul_comm m s
    omega
  refine ⟨hbf, ?_, hget, ?_, ?_, ?_⟩
  · unfold db_hdf5_ReadVarSlice_counts
    rw [hbf]
    rfl
  · rw [hget]
    exact hle
  · intro m hm
    rw [hget]
    exact hmin m hm
  · rw [hget]
    symm
    rw [Int.ceil_eq_iff]
    simp only [Int.cast_natCast]
    have hsq : (0 : ℚ) < (s : ℚ) := by exact_mod_cast hspos
    constructor
    · rw [lt_div_iff₀ hsq]
      have hub : (l + s - 1) / s * s ≤ l + s - 1 := Nat.div_mul_le_self _ _
      have hcast : (((l + s - 1) / s : Nat) : ℚ) * (s : ℚ) ≤
          (l : ℚ) + (s : ℚ) - 1 := by
        have h1 : (((l + s - 1) / s * s : Nat) : ℚ) ≤
            (((l + s - 1 : Nat)) : ℚ) := by exact_mod_cast hub
        rw [Nat.cast_sub (by omega : 1 ≤ l + s)] at h1
        push_cast at h1
        linarith
      have hexp : ((((l + s - 1) / s : Nat) : ℚ) - 1) * (s : ℚ) =
          (((l + s - 1) / s : Nat) : ℚ) * (s : ℚ) - (s : ℚ) := by ring
      have h1s : (1 : ℚ) ≤ (s : ℚ) := by exact_mod_cast hspos
      rw [hexp]
      linarith
    · rw [div_le_iff₀ hsq]
      exact_mod_cast hle

/-- Witness for `build_fspace_ceil_div`: rank 1, offset 2, length 7,
stride 2 (the doc-comment example at silo_hdf5.c:2592-2597, count 4). -/
theorem build_fspace_ceil_div_witness :
    build_fspace 1 [2] [7] [2] =
      some ([2], [2], hs_counts 1 [7] [2]) ∧
    db_hdf5_ReadVarSlice_counts 1 [2] [7] [2] =
      some (hs_counts 1 [7] [2]) ∧
    (hs_counts 1 [7] [2]).getD 0 0 = (7 + 2 - 1) / 2 ∧
    7 ≤ (hs_counts 1 [7] [2]).getD 0 0 * 2 ∧
    (∀ m, 7 ≤ m * 2 → (hs_counts 1 [7] [2]).getD 0 0 ≤ m) ∧
    ((hs_counts 1 [7] [2]).getD 0 0 : Int) = ⌈(7 : ℚ) / (2 : ℚ)⌉ :=
  build_fspace_ceil_div 1 [2] [7] [2] (by decide) 0 (by decide) (by decide)

/-- C10.  The element-count computation is total: a zero stride takes the
`else` arm and yields count 1 without performing the division
(silo_hdf5.c:2631-2633). -/
theorem hs_count_zero_stride (length : Nat) :
    hs_count length 0 = 1 := by
  simp [hs_count]

/-! ## Component dataset write (silo_hdf5.c:3719-3831
    `db_hdf5_compwrz`) -/

/-- Observable outcome of one `db_hdf5_compwrz` call: the returned
value (0 on the no-op path, else the dataset handle or -1), the name
written back through the `name` in/out argument, and whether a dataset
was created / data written. -/
structure CompwrResult where
  ret : Int
  nameOut : String
  created : Bool
  wrote : Bool
deriving DecidableEq, Repr

/-- Embedding of the entry guard of `db_hdf5_compwrz`
(silo_hdf5.c:3730-3741): a negative rank sets the allocate-only flag and
is negated; `nels` is the product of the first `rank` extents; with no
data pointer or no elements, and without the allocate-only flag, the call
stores an empty string into `name` and returns 0 having touched nothing.
`bufNull` is `!buf`; `body` abstracts the PROTECT block that otherwise
creates (and optionally writes) the dataset. -/
def db_hdf5_compwrz (rank : Int) (size : List Int) (bufNull : Bool)
    (body : CompwrResult) : CompwrResult :=
  let alloc := rank < 0
  let rank' := if rank < 0 then -rank else rank
  let nels := ((size.take rank'.toNat).foldl (· * ·) 1)
  if (bufNull ∨ nels = 0) ∧ ¬alloc then
    { ret := 0, nameOut := "", created := false, wrote := false }
  else body

/-- C9.  A component write with a null data pointer or zero total element
count, invoked without the negative-rank allocate-only flag, returns 0,
creates no dataset, writes nothing, and sets the returned component name
to the empty string — independent of whatever the create path would have
done. -/
theorem db_hdf5_compwrz_noop (rank : Int) (size : List Int)
    (bufNull : Bool) (body : CompwrResult) (hrank : 0 ≤ rank)
    (h : bufNull = true ∨
      (size.take rank.toNat).foldl (· * ·) 1 = 0) :
    db_hdf5_compwrz rank size bufNull body =
      { ret := 0, nameOut := "", created := false, wrote := false } := by
  unfold db_hdf5_compwrz
  rw [if_pos]
  have hneg : ¬ rank < 0 := not_lt.mpr hrank
  refine ⟨?_, by simpa using hneg⟩
  rw [if_neg hneg]
  rcases h with h | h
  · exact .inl h
  · exact .inr h

/-- Witness for `db_hdf5_compwrz_noop`: rank 2 with extents `[3, 0]`
(zero elements) and a live body that would have created a dataset. -/
theorem db_hdf5_compwrz_noop_witness :
    db_hdf5_compwrz 2 [3, 0] false
        { ret := 42, nameOut := "x", created := true, wrote := true } =
      { ret := 0, nameOut := "", created := false, wrote := false } :=
  db_hdf5_compwrz_noop 2 [3, 0] false
    { ret := 42, nameOut := "x", created := true, wrote := true }
    (by decide) (.inr (by decide))

end Silo
